import Mathlib

/-!
Verification of the `age` note-curation tool's core components against its
specification.  The TypeScript sources are shallowly embedded: JavaScript
numbers appear as `ℚ`, JS objects/Maps as association lists (`List (String × β)`),
the file system and the in-memory link cache as explicit state records, and
network / directory-walk effects as oracle functions bundled in environment
structures.  Each embedded definition names the source function it models.
-/

/-- JS `Math.min` on rationals, written with `if` so concrete values compute. -/
def qmin (a b : ℚ) : ℚ := if a ≤ b then a else b

/-- JS `Math.max` on rationals, written with `if` so concrete values compute. -/
def qmax (a b : ℚ) : ℚ := if a ≤ b then b else a

/-- Clamp a rational into the interval `[0, 1]`. -/
def clamp01 (q : ℚ) : ℚ := qmin (qmax q 0) 1

theorem qmin_le_left (a b : ℚ) : qmin a b ≤ a := by
  unfold qmin; split
  · exact le_rfl
  · rename_i h; exact le_of_not_le h

theorem qmin_le_right (a b : ℚ) : qmin a b ≤ b := by
  unfold qmin; split
  · rename_i h; exact h
  · exact le_rfl

theorem le_qmin (a b c : ℚ) (h₁ : c ≤ a) (h₂ : c ≤ b) : c ≤ qmin a b := by
  unfold qmin; split <;> assumption

theorem qmin_eq_left (a b : ℚ) (h : a ≤ b) : qmin a b = a := by
  unfold qmin; simp [h]

theorem qmin_nonneg (a b : ℚ) (ha : 0 ≤ a) (hb : 0 ≤ b) : 0 ≤ qmin a b :=
  le_qmin a b 0 ha hb

theorem clamp01_of_mem (q : ℚ) (h0 : 0 ≤ q) (h1 : q ≤ 1) : clamp01 q = q := by
  unfold clamp01 qmin qmax
  split_ifs <;> linarith

theorem clamp01_eq_qmin_one (q : ℚ) (h0 : 0 ≤ q) : clamp01 q = qmin q 1 := by
  unfold clamp01 qmin qmax
  split_ifs <;> linarith

/-- Lookup in an association list; models JS `obj[key]` / `Map.get`. -/
def lookupStr {β : Type} : List (String × β) → String → Option β
  | [], _ => none
  | (k', v) :: rest, k => if k' = k then some v else lookupStr rest k

/-- Update-or-append in an association list; models JS `obj[key] = v` /
`Map.set` (an existing key keeps its position, a new key goes last). -/
def setStr {β : Type} : List (String × β) → String → β → List (String × β)
  | [], k, v => [(k, v)]
  | (k', v') :: rest, k, v =>
      if k' = k then (k, v) :: rest else (k', v') :: setStr rest k v

theorem lookupStr_setStr_self {β : Type} (m : List (String × β)) (k : String) (v : β) :
    lookupStr (setStr m k v) k = some v := by
  induction m with
  | nil => simp [setStr, lookupStr]
  | cons hd tl ih =>
      obtain ⟨k', v'⟩ := hd
      by_cases h : k' = k
      · simp [setStr, lookupStr, h]
      · simp [setStr, lookupStr, h, ih]

theorem lookupStr_setStr_ne {β : Type} (m : List (String × β)) (k k' : String) (v : β)
    (h : k ≠ k') : lookupStr (setStr m k v) k' = lookupStr m k' := by
  induction m with
  | nil => simp [setStr, lookupStr, h]
  | cons hd tl ih =>
      obtain ⟨k₀, v₀⟩ := hd
      by_cases h₀ : k₀ = k
      · subst h₀; simp [setStr, lookupStr, h]
      · simp only [setStr, if_neg h₀]
        by_cases h₁ : k₀ = k'
        · simp [lookupStr, h₁]
        · simp [lookupStr, h₁, ih]

/-- Worker for `dedupFirst`: drops elements already seen. -/
def dedupGo (seen : List String) : List String → List String
  | [] => []
  | x :: xs => if x ∈ seen then dedupGo seen xs else x :: dedupGo (x :: seen) xs

/-- Insertion-order deduplication; models JS `[...new Set(l)]` (keeps the
first occurrence of each element). -/
def dedupFirst (l : List String) : List String := dedupGo [] l

theorem mem_dedupGo (seen l : List String) (x : String) :
    x ∈ dedupGo seen l ↔ x ∈ l ∧ x ∉ seen := by
  induction l generalizing seen with
  | nil => simp [dedupGo]
  | cons y ys ih =>
      unfold dedupGo
      split
      · rename_i h
        rw [ih]
        constructor
        · rintro ⟨hm, hn⟩; exact ⟨List.mem_cons_of_mem _ hm, hn⟩
        · rintro ⟨hm, hn⟩
          rcases List.mem_cons.1 hm with rfl | hm'
          · exact absurd h hn
          · exact ⟨hm', hn⟩
      · rename_i h
        rw [List.mem_cons, List.mem_cons, ih]
        simp only [List.mem_cons, not_or]
        constructor
        · rintro (rfl | ⟨hm, hne, hns⟩)
          · exact ⟨Or.inl rfl, h⟩
          · exact ⟨Or.inr hm, hns⟩
        · rintro ⟨rfl | hm, hns⟩
          · exact Or.inl rfl
          · by_cases hxy : x = y
            · exact Or.inl hxy
            · exact Or.inr ⟨hm, hxy, hns⟩

theorem mem_dedupFirst (l : List String) (x : String) :
    x ∈ dedupFirst l ↔ x ∈ l := by
  simp [dedupFirst, mem_dedupGo]

theorem nodup_dedupGo (seen l : List String) : (dedupGo seen l).Nodup := by
  induction l generalizing seen with
  | nil => simp [dedupGo]
  | cons y ys ih =>
      unfold dedupGo
      split
      · exact ih seen
      · refine List.nodup_cons.2 ⟨?_, ih (y :: seen)⟩
        intro hc
        exact ((mem_dedupGo (y :: seen) ys y).1 hc).2 (List.mem_cons_self _ _)

theorem nodup_dedupFirst (l : List String) : (dedupFirst l).Nodup :=
  nodup_dedupGo [] l

section StableSort

variable {α : Type} {κ : Type} [LinearOrder κ]

/-- Insert `x` into a descending-sorted list, keeping `x` before later-arriving
elements of equal key — the insertion step of a stable descending sort. -/
def insertByDesc (key : α → κ) (x : α) : List α → List α
  | [] => [x]
  | y :: ys => if key y ≤ key x then x :: y :: ys else y :: insertByDesc key x ys

/-- Stable sort, descending by `key`; models JS `arr.sort((a, b) => key b - key a)`
(JS `Array.prototype.sort` is stable). -/
def sortByDesc (key : α → κ) : List α → List α
  | [] => []
  | x :: xs => insertByDesc key x (sortByDesc key xs)

theorem insertByDesc_perm (key : α → κ) (x : α) (l : List α) :
    List.Perm (insertByDesc key x l) (x :: l) := by
  induction l with
  | nil => simp [insertByDesc]
  | cons y ys ih =>
      unfold insertByDesc
      split
      · exact List.Perm.refl _
      · exact ((ih.cons y).trans (List.Perm.swap x y ys))

theorem sortByDesc_perm (key : α → κ) (l : List α) : List.Perm (sortByDesc key l) l := by
  induction l with
  | nil => simp [sortByDesc]
  | cons x xs ih =>
      exact (insertByDesc_perm key x (sortByDesc key xs)).trans (ih.cons x)

theorem insertByDesc_pairwise (key : α → κ) (x : α) (l : List α)
    (h : l.Pairwise (fun a b => key b ≤ key a)) :
    (insertByDesc key x l).Pairwise (fun a b => key b ≤ key a) := by
  induction l with
  | nil => simp [insertByDesc]
  | cons y ys ih =>
      rcases List.pairwise_cons.1 h with ⟨hy, hys⟩
      unfold insertByDesc
      split
      · rename_i hle
        refine List.pairwise_cons.2 ⟨?_, h⟩
        intro z hz
        rcases List.mem_cons.1 hz with rfl | hz
        · exact hle
        · exact le_trans (hy z hz) hle
      · rename_i hnle
        refine List.pairwise_cons.2 ⟨?_, ih hys⟩
        intro z hz
        rcases List.mem_cons.1 ((insertByDesc_perm key x ys).mem_iff.1 hz) with rfl | hz
        · exact le_of_not_le hnle
        · exact hy z hz

theorem sortByDesc_pairwise (key : α → κ) (l : List α) :
    (sortByDesc key l).Pairwise (fun a b => key b ≤ key a) := by
  induction l with
  | nil => simp [sortByDesc]
  | cons x xs ih => exact insertByDesc_pairwise key x _ ih

/-- Stability of the insertion step, phrased through `filter`: elements passed
over before the insertion point have strictly larger keys, so for any fixed
key value the subsequence at that value is preserved. -/
theorem filter_insertByDesc (key : α → κ) (x : α) (l : List α) (p : α → Bool)
    (hx : p x = true) (hbig : ∀ z, key x < key z → p z = false) :
    (insertByDesc key x l).filter p = x :: l.filter p := by
  induction l with
  | nil => simp [insertByDesc, hx]
  | cons y ys ih =>
      unfold insertByDesc
      split
      · simp [List.filter_cons, hx]
      · rename_i hnle
        have hy : p y = false := hbig y (lt_of_not_le hnle)
        simp [List.filter_cons, hy, ih]

/-- The insertion step is invisible to `filter` when the inserted element is
filtered out. -/
theorem filter_insertByDesc_neg (key : α → κ) (x : α) (l : List α) (p : α → Bool)
    (hx : p x = false) : (insertByDesc key x l).filter p = l.filter p := by
  induction l with
  | nil => simp [insertByDesc, hx]
  | cons y ys ih =>
      unfold insertByDesc
      split
      · simp [List.filter_cons, hx]
      · simp [List.filter_cons, ih]

theorem filter_sortByDesc_of_key (key : α → κ) (l : List α) (c : κ) :
    (sortByDesc key l).filter (fun a => decide (key a = c)) =
      l.filter (fun a => decide (key a = c)) := by
  induction l with
  | nil => simp [sortByDesc]
  | cons x xs ih =>
      unfold sortByDesc
      by_cases hx : key x = c
      · rw [filter_insertByDesc key x _ _ (by simp [hx]) ?_]
        · simp [List.filter_cons, hx, ih]
        · intro z hz
          simp only [decide_eq_false_iff_not]
          intro hc
          rw [hc] at hz
          rw [hx] at hz
          exact lt_irrefl _ hz
      · rw [filter_insertByDesc_neg key x _ _ (by simp [hx])]
        simp [List.filter_cons, hx, ih]

end StableSort

/-! ### Character-list string utilities.

Lean core's `String` functions (`splitOn`, `trim`, `toLower`, …) are
implemented over byte positions and do not reduce inside the kernel, so the
embedding uses these structurally recursive equivalents over `String.data`. -/

/-- Is `pat` a prefix of `l`?  (Bool-valued, structural.) -/
def isPrefixL : List Char → List Char → Bool
  | [], _ => true
  | _ :: _, [] => false
  | a :: pa, b :: lb => a == b && isPrefixL pa lb

def lowerChar (c : Char) : Char :=
  if 'A' ≤ c ∧ c ≤ 'Z' then Char.ofNat (c.toNat + 32) else c

/-- JS `s.toLowerCase()` (ASCII range, which covers every pattern the source
matches case-insensitively). -/
def toLowerStr (s : String) : String := ⟨s.data.map lowerChar⟩

/-- JS `s.trim()`. -/
def trimStr (s : String) : String :=
  ⟨((s.data.dropWhile Char.isWhitespace).reverse.dropWhile
      Char.isWhitespace).reverse⟩

def strDrop (s : String) (n : Nat) : String := ⟨s.data.drop n⟩

def strDropRight (s : String) (n : Nat) : String :=
  ⟨s.data.take (s.data.length - n)⟩

def strStarts (s pre : String) : Bool := isPrefixL pre.data s.data

def strEnds (s suf : String) : Bool := isPrefixL suf.data.reverse s.data.reverse

def strHasChar (s : String) (c : Char) : Bool := s.data.contains c

/-- The part of `s` before the first `|`: `s.split('|')[0]`. -/
def beforePipe (s : String) : String := ⟨s.data.takeWhile (fun c => c != '|')⟩

/-! ### Path-string helpers (Node `path.basename` / `path.dirname` / `path.extname`),
used by the classifier and the backup manager. -/

/-- Models Node `path.basename(p)`: the part after the last `/`. -/
def baseNameOf (p : String) : String :=
  ⟨(p.data.reverse.takeWhile (fun c => c != '/')).reverse⟩

/-- Models Node `path.dirname(p)`. -/
def dirNameOf (p : String) : String :=
  if strHasChar p '/' then
    ⟨p.data.take (p.data.length - (baseNameOf p).data.length - 1)⟩
  else "."

/-- Models Node `path.extname(p)` (no extension for dot-files such as
`.bashrc`): everything from the basename's last dot, unless its only dot is
the leading one. -/
def extNameOf (p : String) : String :=
  let b := baseNameOf p
  let dots := b.data.count '.'
  if dots = 0 then ""
  else if strStarts b "." && dots == 1 then ""
  else ⟨'.' :: (b.data.reverse.takeWhile (fun c => c != '.')).reverse⟩

/-- Models Node `path.basename(p, path.extname(p))`. -/
def baseNameNoExt (p : String) : String :=
  (baseNameOf p).dropRight (extNameOf p).length

/-! ### Document model (`src/types/document.ts`) -/

structure Header where
  level : Nat
  text : String
  line : Nat
deriving DecidableEq

inductive LinkKind
  | external
  | internal
deriving DecidableEq

structure Link where
  type : LinkKind
  url : Option String
  link : Option String
  text : String
  line : Nat
deriving DecidableEq

structure CodeBlock where
  language : Option String
  content : String
  line : Nat
deriving DecidableEq

inductive ListKind
  | ordered
  | unordered
deriving DecidableEq

/-- `ListItem` from the source; the recursive `children` field is omitted as no
embedded routine reads it. -/
structure ListItem where
  type : ListKind
  text : String
  line : Nat
deriving DecidableEq

structure ActionItem where
  text : String
  completed : Bool
  assignee : Option String
  line : Nat
deriving DecidableEq

structure ContentStructure where
  headers : List Header
  links : List Link
  codeBlocks : List CodeBlock
  lists : List ListItem
  actionItems : List ActionItem
  wordCount : Nat
  lineCount : Nat
deriving DecidableEq

/-- A frontmatter scalar/array value (the `any` values of
`ParsedDocument.frontmatter`). -/
inductive FMValue
  | str (s : String)
  | arr (xs : List String)
  | num (n : Int)
  | boolean (b : Bool)
deriving DecidableEq

structure FileMetadata where
  size : Nat
  lastModified : Nat
  encoding : String
  extension : String
deriving DecidableEq

/-- `ParsedDocument`; the source field `structure` is a Lean keyword and is
named `struct` here. -/
structure ParsedDocument where
  filePath : String
  frontmatter : List (String × FMValue)
  frontmatterRaw : String
  content : String
  struct : ContentStructure
  metadata : FileMetadata
deriving DecidableEq

/-! ### Configuration model (`src/types/config.ts`) -/

structure AIConfig where
  provider : String
  model : Option String
  apiKey : Option String
  baseUrl : Option String
deriving DecidableEq

structure BackupConfig where
  retention : String
  compress : Option Bool
  maxSize : Option String
deriving DecidableEq

structure ProcessingConfig where
  interactive : Bool
  batchSize : Option Nat
  parallel : Option Bool
deriving DecidableEq

inductive ModKind
  | append
  | prepend
  | replace
deriving DecidableEq

/-- `ModificationRule.value` is `string | string[]` in the source. -/
inductive StrOrList
  | one (s : String)
  | many (xs : List String)
deriving DecidableEq

structure ModificationRule where
  type : ModKind
  value : StrOrList
deriving DecidableEq

/-- `FrontmatterRules`; `add` values are template strings (the
`TemplateFunction` alternative cannot occur in JSON configuration files). -/
structure FrontmatterRules where
  keep : List String
  remove : List String
  add : List (String × String)
  modify : Option (List (String × ModificationRule))
deriving DecidableEq

structure ContentRules where
  summarize : Bool
  preserve : Option (List String)
  urlProcessing : Option Bool
  linkVerification : Option Bool
deriving DecidableEq

structure DocumentTypeConfig where
  frontmatter : FrontmatterRules
  content : ContentRules
deriving DecidableEq

/-- `AgeConfig`; the `documentTypes` record is an insertion-ordered map,
modelled as an association list. -/
structure AgeConfig where
  ai : Option AIConfig
  backup : Option BackupConfig
  processing : Option ProcessingConfig
  documentTypes : Option (List (String × DocumentTypeConfig))
deriving DecidableEq

/-! ### Executable renderings of the classifier's regular expressions
(`src/types/detector.ts`).  Case-insensitive (`/i`) tests are modelled by
lowercasing the subject and using lowercase patterns, exactly as the source
lowercases `document.content` before matching. -/

/-- Drop a matched prefix, or fail. -/
def dropPrefixL : List Char → List Char → Option (List Char)
  | [], l => some l
  | _ :: _, [] => none
  | a :: pa, b :: lb => if a == b then dropPrefixL pa lb else none

/-- Does `l` contain `pat` as a contiguous sublist? -/
def containsSubL : List Char → List Char → Bool
  | [], pat => pat.isEmpty
  | l@(_ :: rest), pat => isPrefixL pat l || containsSubL rest pat

/-- JS `s.includes(pat)`; also the meaning of `/lit/.test(s)` for a literal. -/
def strContainsSub (s pat : String) : Bool := containsSubL s.data pat.data

/-- One alternative of an alternation regex: a literal, or `a.?b`
(literal `a`, at most one arbitrary character, literal `b`). -/
inductive RePat
  | lit (s : String)
  | withOpt (a b : String)

/-- Length of the match of `p` at the head of `l`, if any (`.?` is greedy,
as in JS). -/
def rePatMatchLen (p : RePat) (l : List Char) : Option Nat :=
  match p with
  | .lit s => if (dropPrefixL s.data l).isSome then some s.data.length else none
  | .withOpt a b =>
      match dropPrefixL a.data l with
      | none => none
      | some rest =>
          match rest with
          | _ :: rest2 =>
              if (dropPrefixL b.data rest2).isSome then
                some (a.data.length + 1 + b.data.length)
              else if (dropPrefixL b.data rest).isSome then
                some (a.data.length + b.data.length)
              else none
          | [] =>
              if (dropPrefixL b.data rest).isSome then
                some (a.data.length + b.data.length)
              else none

/-- First alternative matching at the head of `l` (JS alternation order). -/
def firstAltLen (pats : List RePat) (l : List Char) : Option Nat :=
  match pats with
  | [] => none
  | p :: ps =>
      match rePatMatchLen p l with
      | some n => some n
      | none => firstAltLen ps l

/-- Fuel-indexed count of non-overlapping global matches, scanning left to
right (JS `s.match(/…/g).length`). -/
def countReGo (fuel : Nat) (pats : List RePat) (l : List Char) : Nat :=
  match fuel, l with
  | 0, _ => 0
  | _, [] => 0
  | fuel' + 1, l₀@(_ :: rest) =>
      match firstAltLen pats l₀ with
      | some n => 1 + countReGo fuel' pats (l₀.drop (max n 1))
      | none => countReGo fuel' pats rest

/-- JS `(s.match(/…/g) || []).length`. -/
def countMatches (s : String) (pats : List RePat) : Nat :=
  countReGo s.data.length pats s.data

/-- Does any alternative match anywhere?  (JS `/…/.test(s)`.) -/
def testReL : List Char → List RePat → Bool
  | [], pats => (firstAltLen pats []).isSome
  | l@(_ :: rest), pats => (firstAltLen pats l).isSome || testReL rest pats

def testRe (s : String) (pats : List RePat) : Bool := testReL s.data pats

/-- `\d{1,2}:\d{2}` at the head of `l`. -/
def clockAt (l : List Char) : Bool :=
  match l with
  | a :: ':' :: c :: d :: _ => a.isDigit && c.isDigit && d.isDigit
  | a :: b :: ':' :: c :: d :: _ => a.isDigit && b.isDigit && c.isDigit && d.isDigit
  | _ => false

/-- `\d{1,2}:\d{2}` anywhere in `l`. -/
def hasClockTimeL : List Char → Bool
  | [] => false
  | l@(_ :: rest) => clockAt l || hasClockTimeL rest

/-- Four consecutive digits at the head of `l`. -/
def fourDigitsAt (l : List Char) : Bool :=
  match l with
  | a :: b :: c :: d :: _ => a.isDigit && b.isDigit && c.isDigit && d.isDigit
  | _ => false

/-- A `)` before the next newline (the `.` of the source regex does not cross
lines). -/
def closeParenBeforeNL : List Char → Bool
  | [] => false
  | c :: rest => if c == '\n' then false else c == ')' || closeParenBeforeNL rest

/-- After an opening `(`: four consecutive digits and then a `)`, all before a
newline — renders `\(.*\d{4}.*\)`. -/
def parenCiteAfter : List Char → Bool
  | [] => false
  | c :: rest =>
      if c == '\n' then false
      else (fourDigitsAt (c :: rest) && closeParenBeforeNL ((c :: rest).drop 4))
        || parenCiteAfter rest

/-- `\[\d+\]` needs one-or-more digits then `]`. -/
def closeAfterDigits : List Char → Bool
  | [] => false
  | ']' :: _ => true
  | c :: rest => c.isDigit && closeAfterDigits rest

/-- `\[\d+\]` at the head of `l`. -/
def bracketNumAt : List Char → Bool
  | '[' :: c :: rest => c.isDigit && closeAfterDigits (c :: rest)
  | _ => false

def citationScan : List Char → Bool
  | [] => false
  | l₀@(c :: rest) =>
      bracketNumAt l₀ || (c == '(' && parenCiteAfter rest) || citationScan rest

/-- Renders `/\[\d+\]|\(.*\d{4}.*\)|doi:|arxiv:/i` on lowercased content. -/
def hasCitation (s : String) : Bool :=
  citationScan s.data || strContainsSub s "doi:" || strContainsSub s "arxiv:"

/-! ### Type classifier (`DocumentTypeDetector`, `src/types/detector.ts`) -/

structure ScoreResult where
  score : ℚ
  reasons : List String
  warnings : List String := []

/-- `DocumentTypeDetector.isValidDate`: `^\d{4}-\d{2}-\d{2}$` plus parseability
(`Date.parse`), the latter rendered as a month/day range check. -/
def isValidDate (v : FMValue) : Bool :=
  match v with
  | .str s =>
      (match s.data with
       | [y1, y2, y3, y4, '-', m1, m2, '-', d1, d2] =>
           y1.isDigit && y2.isDigit && y3.isDigit && y4.isDigit &&
           m1.isDigit && m2.isDigit && d1.isDigit && d2.isDigit &&
           (let m := (m1.toNat - 48) * 10 + (m2.toNat - 48)
            let d := (d1.toNat - 48) * 10 + (d2.toNat - 48)
            decide (1 ≤ m) && decide (m ≤ 12) && decide (1 ≤ d) && decide (d ≤ 31))
       | _ => false)
  | _ => false

/-- The extra reason strings produced per present "keep" field. -/
def keepFieldReasons (field : String) (v : FMValue) : List String :=
  ["Contains: " ++ field] ++
  (if field == "date" && isValidDate v then ["Date format valid"]
   else
     match field, v with
     | "attendees", .arr xs => [toString xs.length ++ " attendees listed"]
     | "tags", .arr xs => [toString xs.length ++ " tags"]
     | _, _ => [])

/-- `DocumentTypeDetector.scoreFrontmatter`.  `matches` counts present "keep"
fields, `total` counts defined ones; score `matches/total`, multiplied by the
1.2 rich-frontmatter bonus when at least 3 fields match — with no clamp of its
own.  Present "remove" fields yield warnings only. -/
def scoreFrontmatter (doc : ParsedDocument) (_typeName : String)
    (typeConfig : DocumentTypeConfig) : ScoreResult :=
  let fm := doc.frontmatter
  let rules := typeConfig.frontmatter
  let keepReasons :=
    (rules.keep.map (fun field =>
      match lookupStr fm field with
      | none => []
      | some v => keepFieldReasons field v)).flatten
  let nMatches := (rules.keep.filter (fun f => (lookupStr fm f).isSome)).length
  let total := rules.keep.length
  let warnings :=
    (rules.remove.filter (fun f => (lookupStr fm f).isSome)).map
      (fun f => "Contains '" ++ f ++ "' field (usually removed for this type)")
  let score0 : ℚ := if total > 0 then (nMatches : ℚ) / (total : ℚ) else 0
  let score := if nMatches ≥ 3 then score0 * 1.2 else score0
  let reasons :=
    keepReasons ++ (if nMatches ≥ 3 then ["Rich frontmatter structure"] else [])
  ⟨score, reasons, warnings⟩

def meetingHeaderPats : List RePat :=
  [.lit "agenda", .lit "discussion", .withOpt "action" "items", .lit "notes",
   .lit "attendees", .lit "decisions"]

def meetingWordPats : List RePat :=
  [.lit "discussed", .lit "decided", .lit "agreed", .lit "meeting",
   .lit "agenda", .withOpt "follow" "up"]

/-- `scoreMeetingNotesPatterns`. -/
def scoreMeetingNotesPatterns (struct : ContentStructure) (content : String) :
    ScoreResult :=
  let matchingHeaders := struct.headers.filter
    (fun h => testRe (toLowerStr h.text) meetingHeaderPats)
  let s1 : ℚ := if matchingHeaders.length > 0 then 0.3 else 0
  let r1 := if matchingHeaders.length > 0 then
      ["Meeting headers: " ++
        String.intercalate ", " (matchingHeaders.map (fun h => h.text))]
    else []
  let s2 : ℚ := if struct.actionItems.length > 0 then 0.4 else 0
  let r2 := if struct.actionItems.length > 0 then
      [toString struct.actionItems.length ++ " action items found"]
    else []
  let s3 : ℚ := if countMatches content meetingWordPats > 2 then 0.2 else 0
  let r3 := if countMatches content meetingWordPats > 2 then
      ["Meeting language patterns"] else []
  let timeHit := hasClockTimeL content.data ||
    testRe content [.lit "am", .lit "pm", .lit "morning", .lit "afternoon"]
  let s4 : ℚ := if timeHit then 0.1 else 0
  let r4 := if timeHit then ["Time references found"] else []
  ⟨qmin (s1 + s2 + s3 + s4) 1, r1 ++ r2 ++ r3 ++ r4, []⟩

def researchHeaderPats : List RePat :=
  [.lit "methodology", .lit "findings", .lit "conclusion", .lit "results",
   .lit "analysis", .lit "summary", .lit "abstract"]

def researchWordPats : List RePat :=
  [.lit "study", .lit "research", .lit "analysis", .lit "methodology",
   .lit "findings", .lit "hypothesis", .lit "evidence", .lit "data"]

/-- `scoreResearchPatterns`. -/
def scoreResearchPatterns (struct : ContentStructure) (content : String) :
    ScoreResult :=
  let matchingHeaders := struct.headers.filter
    (fun h => testRe (toLowerStr h.text) researchHeaderPats)
  let s1 : ℚ := if matchingHeaders.length > 0 then 0.3 else 0
  let r1 := if matchingHeaders.length > 0 then
      ["Research headers: " ++
        String.intercalate ", " (matchingHeaders.map (fun h => h.text))]
    else []
  let externalLinks :=
    (struct.links.filter (fun l => l.type == LinkKind.external)).length
  let s2 : ℚ := if externalLinks > 0 then 0.4 else 0
  let r2 := if externalLinks > 0 then
      [toString externalLinks ++ " external references"] else []
  let s3 : ℚ := if countMatches content researchWordPats > 3 then 0.2 else 0
  let r3 := if countMatches content researchWordPats > 3 then
      ["Research terminology"] else []
  let s4 : ℚ := if hasCitation content then 0.1 else 0
  let r4 := if hasCitation content then ["Citations/references found"] else []
  ⟨qmin (s1 + s2 + s3 + s4) 1, r1 ++ r2 ++ r3 ++ r4, []⟩

def projectHeaderPats : List RePat :=
  [.lit "requirements", .lit "implementation", .lit "plan", .lit "progress",
   .lit "blockers", .lit "tasks", .lit "todo"]

def projectWordPats : List RePat :=
  [.lit "task", .lit "project", .lit "implement", .lit "develop", .lit "build",
   .lit "feature", .lit "requirement", .lit "deadline"]

/-- `/progress|status|completed?|in.?progress|todo|done/`: `completed?` tests
true exactly when "complete" occurs. -/
def progressPats : List RePat :=
  [.lit "progress", .lit "status", .lit "complete", .withOpt "in" "progress",
   .lit "todo", .lit "done"]

/-- `scoreProjectWorkPatterns`. -/
def scoreProjectWorkPatterns (struct : ContentStructure) (content : String) :
    ScoreResult :=
  let matchingHeaders := struct.headers.filter
    (fun h => testRe (toLowerStr h.text) projectHeaderPats)
  let s1 : ℚ := if matchingHeaders.length > 0 then 0.3 else 0
  let r1 := if matchingHeaders.length > 0 then
      ["Project headers: " ++
        String.intercalate ", " (matchingHeaders.map (fun h => h.text))]
    else []
  let s2 : ℚ := if struct.codeBlocks.length > 0 then 0.3 else 0
  let r2 := if struct.codeBlocks.length > 0 then
      [toString struct.codeBlocks.length ++ " code blocks"] else []
  let s3 : ℚ := if countMatches content projectWordPats > 2 then 0.2 else 0
  let r3 := if countMatches content projectWordPats > 2 then
      ["Project terminology"] else []
  let s4 : ℚ := if testRe content progressPats then 0.2 else 0
  let r4 := if testRe content progressPats then ["Progress indicators"] else []
  ⟨qmin (s1 + s2 + s3 + s4) 1, r1 ++ r2 ++ r3 ++ r4, []⟩

def personalWordPats : List RePat :=
  [.lit "i think", .lit "i feel", .lit "my", .lit "personally",
   .lit "reflection", .lit "thoughts", .lit "ideas"]

def reflectivePats : List RePat :=
  [.lit "feel", .lit "emotion", .lit "reflect", .lit "wonder", .lit "hope",
   .lit "wish", .lit "dream"]

def informalPats : List RePat :=
  [.lit "really", .lit "actually", .lit "basically", .lit "honestly",
   .lit "whatever", .lit "anyway"]

def randomHeaderPats : List RePat :=
  [.lit "random", .lit "thoughts", .lit "ideas", .lit "misc", .lit "various"]

/-- `scorePersonalNotesPatterns`. -/
def scorePersonalNotesPatterns (struct : ContentStructure) (content : String) :
    ScoreResult :=
  let s1 : ℚ := if countMatches content personalWordPats > 2 then 0.4 else 0
  let r1 := if countMatches content personalWordPats > 2 then
      ["First-person language"] else []
  let s2 : ℚ := if testRe content reflectivePats then 0.3 else 0
  let r2 := if testRe content reflectivePats then
      ["Reflective/emotional content"] else []
  let s3 : ℚ := if testRe content informalPats then 0.2 else 0
  let r3 := if testRe content informalPats then ["Informal tone"] else []
  let matchingHeaders := struct.headers.filter
    (fun h => testRe (toLowerStr h.text) randomHeaderPats)
  let s4 : ℚ := if matchingHeaders.length > 0 then 0.1 else 0
  let r4 := if matchingHeaders.length > 0 then ["Personal note structure"] else []
  ⟨qmin (s1 + s2 + s3 + s4) 1, r1 ++ r2 ++ r3 ++ r4, []⟩

/-- `DocumentTypeDetector.scoreContentPatterns`: dispatch by category name,
over the lowercased body; unknown categories score 0. -/
def scoreContentPatterns (doc : ParsedDocument) (typeName : String) : ScoreResult :=
  let content := toLowerStr doc.content
  if typeName = "meeting-notes" then scoreMeetingNotesPatterns doc.struct content
  else if typeName = "research" then scoreResearchPatterns doc.struct content
  else if typeName = "project-work" then scoreProjectWorkPatterns doc.struct content
  else if typeName = "personal-notes" then scorePersonalNotesPatterns doc.struct content
  else ⟨0, [], []⟩

/-- The `pathPatterns` table; `/papers?/`, `/projects?/`, `/tasks?/` test
exactly as containment of their stems. -/
def pathPatterns (typeName : String) : List String :=
  if typeName = "meeting-notes" then ["meeting", "notes", "agenda"]
  else if typeName = "research" then ["research", "paper", "studies", "analysis"]
  else if typeName = "project-work" then ["project", "task", "work", "dev"]
  else if typeName = "personal-notes" then ["personal", "journal", "diary", "thoughts"]
  else []

/-- `DocumentTypeDetector.scoreFilePath`: 0.8 on the first pattern matching
path or basename, else 0 (the loop body is identical for every pattern, so
`break` is equivalent to `any`). -/
def scoreFilePath (doc : ParsedDocument) (typeName : String) : ScoreResult :=
  let filePath := toLowerStr doc.filePath
  let fileName := toLowerStr (baseNameOf filePath)
  if (pathPatterns typeName).any
      (fun pat => strContainsSub filePath pat || strContainsSub fileName pat) then
    ⟨0.8, ["File path matches " ++ typeName ++ " pattern"], []⟩
  else ⟨0, [], []⟩

structure TypeScore where
  type : String
  confidence : ℚ
  reasons : List String
  warnings : Option (List String)

structure DetectionResult where
  primaryType : String
  allScores : List TypeScore
  recommendations : List String

/-- JS truthiness of a frontmatter value (for the `!frontmatter.date`-style
checks in `generateRecommendations`). -/
def isFalsyFM (v : Option FMValue) : Bool :=
  match v with
  | none => true
  | some (.str s) => s == ""
  | some (.num n) => n == 0
  | some (.boolean b) => !b
  | some (.arr _) => false

/-- `DocumentTypeDetector.generateRecommendations`. -/
def generateRecommendations (doc : ParsedDocument) (scores : List TypeScore) :
    List String :=
  let fm := doc.frontmatter
  let r1 :=
    match scores.head? with
    | none =>
        ["Low confidence in type detection - consider adding more specific frontmatter"]
    | some p =>
        if p.confidence < 0.5 then
          ["Low confidence in type detection - consider adding more specific frontmatter"]
        else []
  let foundProblematic :=
    (["author", "status", "draft"] : List String).filter
      (fun f => (lookupStr fm f).isSome)
  let r2 := if foundProblematic.length > 0 then
      ["Consider removing temporary fields: " ++
        String.intercalate ", " foundProblematic]
    else []
  let r3 :=
    match scores.head? with
    | some p =>
        if p.type == "meeting-notes" then
          (if isFalsyFM (lookupStr fm "date") then
            ["Add date field for meeting context"] else []) ++
          (if isFalsyFM (lookupStr fm "attendees") then
            ["Add attendees field for reference"] else [])
        else if p.type == "research" then
          (if isFalsyFM (lookupStr fm "source") then
            ["Add source field for citation"] else []) ++
          (if isFalsyFM (lookupStr fm "methodology") then
            ["Add methodology field for context"] else [])
        else if p.type == "project-work" then
          (if isFalsyFM (lookupStr fm "project") then
            ["Add project field for categorization"] else []) ++
          (if isFalsyFM (lookupStr fm "priority") then
            ["Add priority field for task management"] else [])
        else []
    | none => []
  let r4 := if doc.struct.actionItems.length > 5 then
      ["Many action items found - consider breaking into separate documents"]
    else []
  let r5 := if (doc.struct.links.filter
      (fun l => l.type == LinkKind.external)).length > 10 then
      ["Many external links - aging process will verify and potentially summarize these"]
    else []
  r1 ++ r2 ++ r3 ++ r4 ++ r5

/-- One iteration of the scoring loop in `detectDocumentType`: weighted
combination `0.4 / 0.4 / 0.2`, total clamped above by 1. -/
def scoreOneType (doc : ParsedDocument) (typeName : String)
    (typeConfig : DocumentTypeConfig) : TypeScore :=
  let frontmatterResult := scoreFrontmatter doc typeName typeConfig
  let contentResult := scoreContentPatterns doc typeName
  let pathResult := scoreFilePath doc typeName
  let totalScore :=
    frontmatterResult.score * 0.4 + contentResult.score * 0.4 +
      pathResult.score * 0.2
  let allReasons :=
    frontmatterResult.reasons ++ contentResult.reasons ++ pathResult.reasons
  let allWarnings := frontmatterResult.warnings
  { type := typeName,
    confidence := qmin totalScore 1,
    reasons := allReasons.filter (fun r => r.length > 0),
    warnings := if allWarnings.length > 0 then some allWarnings else none }

/-- The scores in configured order, before sorting. -/
def rawTypeScores (config : AgeConfig) (doc : ParsedDocument) : List TypeScore :=
  (config.documentTypes.getD []).map (fun p => scoreOneType doc p.1 p.2)

/-- `DocumentTypeDetector.detectDocumentType`.  `primaryType` is
`scores[0]?.type || 'unknown'`: `||` falls back to `'unknown'` both when no
category is configured and when the top-scoring category's name is the empty
string (the one falsy string). -/
def detectDocumentType (config : AgeConfig) (doc : ParsedDocument) :
    DetectionResult :=
  let scores := sortByDesc (fun s => s.confidence) (rawTypeScores config doc)
  { primaryType :=
      (match scores.head? with
       | none => "unknown"
       | some t => if t.type = "" then "unknown" else t.type),
    allScores := scores,
    recommendations := generateRecommendations doc scores }

/-! ### Classifier score bounds -/

theorem scoreFrontmatter_nonneg (doc : ParsedDocument) (tn : String)
    (tc : DocumentTypeConfig) : 0 ≤ (scoreFrontmatter doc tn tc).score := by
  unfold scoreFrontmatter
  dsimp only
  split_ifs <;> positivity

theorem scoreFrontmatter_le (doc : ParsedDocument) (tn : String)
    (tc : DocumentTypeConfig) : (scoreFrontmatter doc tn tc).score ≤ 6/5 := by
  unfold scoreFrontmatter
  dsimp only
  have hmt : ((tc.frontmatter.keep.filter
      (fun f => (lookupStr doc.frontmatter f).isSome)).length : ℚ) ≤
      (tc.frontmatter.keep.length : ℚ) := by
    exact_mod_cast List.length_filter_le _ _
  split_ifs with h1 h2 h3
  · have hpos : (0 : ℚ) < (tc.frontmatter.keep.length : ℚ) := by exact_mod_cast h2
    have hdiv : ((tc.frontmatter.keep.filter
        (fun f => (lookupStr doc.frontmatter f).isSome)).length : ℚ) /
        (tc.frontmatter.keep.length : ℚ) ≤ 1 := (div_le_one hpos).2 hmt
    linarith
  · norm_num
  · have hpos : (0 : ℚ) < (tc.frontmatter.keep.length : ℚ) := by exact_mod_cast h3
    have hdiv : ((tc.frontmatter.keep.filter
        (fun f => (lookupStr doc.frontmatter f).isSome)).length : ℚ) /
        (tc.frontmatter.keep.length : ℚ) ≤ 1 := (div_le_one hpos).2 hmt
    linarith
  · norm_num

theorem scoreMeetingNotesPatterns_nonneg (st : ContentStructure) (c : String) :
    0 ≤ (scoreMeetingNotesPatterns st c).score := by
  unfold scoreMeetingNotesPatterns
  dsimp only
  exact qmin_nonneg _ _ (by split_ifs <;> norm_num) (by norm_num)

theorem scoreMeetingNotesPatterns_le (st : ContentStructure) (c : String) :
    (scoreMeetingNotesPatterns st c).score ≤ 1 := by
  unfold scoreMeetingNotesPatterns
  dsimp only
  exact qmin_le_right _ _

theorem scoreResearchPatterns_nonneg (st : ContentStructure) (c : String) :
    0 ≤ (scoreResearchPatterns st c).score := by
  unfold scoreResearchPatterns
  dsimp only
  exact qmin_nonneg _ _ (by split_ifs <;> norm_num) (by norm_num)

theorem scoreResearchPatterns_le (st : ContentStructure) (c : String) :
    (scoreResearchPatterns st c).score ≤ 1 := by
  unfold scoreResearchPatterns
  dsimp only
  exact qmin_le_right _ _

theorem scoreProjectWorkPatterns_nonneg (st : ContentStructure) (c : String) :
    0 ≤ (scoreProjectWorkPatterns st c).score := by
  unfold scoreProjectWorkPatterns
  dsimp only
  exact qmin_nonneg _ _ (by split_ifs <;> norm_num) (by norm_num)

theorem scoreProjectWorkPatterns_le (st : ContentStructure) (c : String) :
    (scoreProjectWorkPatterns st c).score ≤ 1 := by
  unfold scoreProjectWorkPatterns
  dsimp only
  exact qmin_le_right _ _

theorem scorePersonalNotesPatterns_nonneg (st : ContentStructure) (c : String) :
    0 ≤ (scorePersonalNotesPatterns st c).score := by
  unfold scorePersonalNotesPatterns
  dsimp only
  exact qmin_nonneg _ _ (by split_ifs <;> norm_num) (by norm_num)

theorem scorePersonalNotesPatterns_le (st : ContentStructure) (c : String) :
    (scorePersonalNotesPatterns st c).score ≤ 1 := by
  unfold scorePersonalNotesPatterns
  dsimp only
  exact qmin_le_right _ _

theorem scoreContentPatterns_nonneg (doc : ParsedDocument) (tn : String) :
    0 ≤ (scoreContentPatterns doc tn).score := by
  unfold scoreContentPatterns
  split_ifs
  · exact scoreMeetingNotesPatterns_nonneg _ _
  · exact scoreResearchPatterns_nonneg _ _
  · exact scoreProjectWorkPatterns_nonneg _ _
  · exact scorePersonalNotesPatterns_nonneg _ _
  · norm_num

theorem scoreContentPatterns_le (doc : ParsedDocument) (tn : String) :
    (scoreContentPatterns doc tn).score ≤ 1 := by
  unfold scoreContentPatterns
  split_ifs
  · exact scoreMeetingNotesPatterns_le _ _
  · exact scoreResearchPatterns_le _ _
  · exact scoreProjectWorkPatterns_le _ _
  · exact scorePersonalNotesPatterns_le _ _
  · norm_num

theorem scoreFilePath_nonneg (doc : ParsedDocument) (tn : String) :
    0 ≤ (scoreFilePath doc tn).score := by
  unfold scoreFilePath
  dsimp only
  split <;> norm_num

theorem scoreFilePath_le (doc : ParsedDocument) (tn : String) :
    (scoreFilePath doc tn).score ≤ 1 := by
  unfold scoreFilePath
  dsimp only
  split <;> norm_num

theorem scoreOneType_confidence_nonneg (doc : ParsedDocument) (tn : String)
    (tc : DocumentTypeConfig) : 0 ≤ (scoreOneType doc tn tc).confidence := by
  refine qmin_nonneg _ _ ?_ (by norm_num)
  have h1 := scoreFrontmatter_nonneg doc tn tc
  have h2 := scoreContentPatterns_nonneg doc tn
  have h3 := scoreFilePath_nonneg doc tn
  linarith

theorem scoreOneType_confidence_le (doc : ParsedDocument) (tn : String)
    (tc : DocumentTypeConfig) : (scoreOneType doc tn tc).confidence ≤ 1 :=
  qmin_le_right _ _

/-! ### Claims C1 and C2 -/

/-- C2 (amended): every configured category's confidence lies in [0,1];
`allScores` is sorted by confidence descending with ties keeping configured
order (stated as preservation of every equal-confidence subsequence); and
`primaryType` equals `allScores[0].type` whenever a category is configured
and the top score's type name is non-empty — `scores[0]?.type || 'unknown'`
also replaces an empty-string name (the one falsy string) by `'unknown'`. -/
theorem detect_result_wellformed (config : AgeConfig) (doc : ParsedDocument) :
    (∀ s ∈ (detectDocumentType config doc).allScores,
        0 ≤ s.confidence ∧ s.confidence ≤ 1) ∧
    (detectDocumentType config doc).allScores.Pairwise
        (fun a b => b.confidence ≤ a.confidence) ∧
    (∀ c : ℚ,
        (detectDocumentType config doc).allScores.filter
            (fun s => decide (s.confidence = c)) =
          (rawTypeScores config doc).filter (fun s => decide (s.confidence = c))) ∧
    (config.documentTypes.getD [] ≠ [] →
        ∃ s rest, (detectDocumentType config doc).allScores = s :: rest ∧
          (s.type ≠ "" →
            (detectDocumentType config doc).primaryType = s.type) ∧
          (s.type = "" →
            (detectDocumentType config doc).primaryType = "unknown")) := by
  have hall : (detectDocumentType config doc).allScores =
      sortByDesc (fun s => s.confidence) (rawTypeScores config doc) := rfl
  refine ⟨?_, ?_, ?_, ?_⟩
  · intro s hs
    rw [hall] at hs
    have hmem := (sortByDesc_perm (fun s => s.confidence)
      (rawTypeScores config doc)).mem_iff.1 hs
    unfold rawTypeScores at hmem
    obtain ⟨p, _, rfl⟩ := List.mem_map.1 hmem
    exact ⟨scoreOneType_confidence_nonneg doc p.1 p.2,
           scoreOneType_confidence_le doc p.1 p.2⟩
  · rw [hall]
    exact sortByDesc_pairwise _ _
  · intro c
    rw [hall]
    exact filter_sortByDesc_of_key _ _ c
  · intro hne
    have hraw : rawTypeScores config doc ≠ [] := by
      unfold rawTypeScores
      intro hmap
      exact hne (List.map_eq_nil_iff.1 hmap)
    have hsne : sortByDesc (fun s : TypeScore => s.confidence)
        (rawTypeScores config doc) ≠ [] := by
      intro h0
      apply hraw
      have hlen := (sortByDesc_perm (fun s : TypeScore => s.confidence)
        (rawTypeScores config doc)).length_eq
      rw [h0] at hlen
      exact List.length_eq_zero.1 hlen.symm
    obtain ⟨s, rest, hcons⟩ := List.exists_cons_of_ne_nil hsne
    have hpt : (detectDocumentType config doc).primaryType =
        (match (sortByDesc (fun s : TypeScore => s.confidence)
            (rawTypeScores config doc)).head? with
         | none => "unknown"
         | some t => if t.type = "" then "unknown" else t.type) := rfl
    refine ⟨s, rest, hall.trans hcons, ?_, ?_⟩
    · intro hne
      rw [hpt, hcons]
      show (if s.type = "" then "unknown" else s.type) = s.type
      rw [if_neg hne]
    · intro he
      rw [hpt, hcons]
      show (if s.type = "" then "unknown" else s.type) = "unknown"
      rw [if_pos he]

/-- Concrete inputs used by the C1 counterexample and by witnesses: a custom
category whose three "keep" fields are all present, on a document with empty
body and a non-matching path, so the frontmatter score is the only nonzero
partial score. -/
def cxTypeConfig : DocumentTypeConfig :=
  { frontmatter :=
      { keep := ["alpha", "beta", "gamma"], remove := [], add := [], modify := none },
    content :=
      { summarize := false, preserve := none, urlProcessing := none,
        linkVerification := none } }

def cxConfig : AgeConfig :=
  { ai := none, backup := none, processing := none,
    documentTypes := some [("custom", cxTypeConfig)] }

def cxStructure : ContentStructure :=
  { headers := [], links := [], codeBlocks := [], lists := [], actionItems := [],
    wordCount := 0, lineCount := 0 }

def cxDoc : ParsedDocument :=
  { filePath := "/zz/qq.md",
    frontmatter := [("alpha", .str "1"), ("beta", .str "1"), ("gamma", .str "1")],
    frontmatterRaw := "", content := "", struct := cxStructure,
    metadata := { size := 0, lastModified := 0, encoding := "utf8", extension := ".md" } }

theorem cx_scoreContentPatterns : scoreContentPatterns cxDoc "custom" = ⟨0, [], []⟩ := by
  unfold scoreContentPatterns
  rw [if_neg (by decide), if_neg (by decide), if_neg (by decide), if_neg (by decide)]

theorem cx_pathPatterns : pathPatterns "custom" = [] := by
  unfold pathPatterns
  rw [if_neg (by decide), if_neg (by decide), if_neg (by decide), if_neg (by decide)]

theorem cx_scoreFilePath : scoreFilePath cxDoc "custom" = ⟨0, [], []⟩ := by
  unfold scoreFilePath
  rw [cx_pathPatterns]
  simp

theorem cx_scoreFrontmatter :
    (scoreFrontmatter cxDoc "custom" cxTypeConfig).score = 6/5 := by
  unfold scoreFrontmatter
  simp [cxDoc, cxTypeConfig, lookupStr]
  norm_num

/-- C2 witness: the theorem applied at a concrete configuration with one
category, its nonempty-configuration hypothesis discharged by evaluation. -/
theorem detect_result_wellformed_witness :
    ∃ s rest, (detectDocumentType cxConfig cxDoc).allScores = s :: rest ∧
      (s.type ≠ "" →
        (detectDocumentType cxConfig cxDoc).primaryType = s.type) ∧
      (s.type = "" →
        (detectDocumentType cxConfig cxDoc).primaryType = "unknown") :=
  (detect_result_wellformed cxConfig cxDoc).2.2.2 (by decide)

/-- A configuration whose single category is named by the empty string —
expressible in any JSON tier. -/
def c2Config : AgeConfig :=
  { ai := none, backup := none, processing := none,
    documentTypes := some [("", cxTypeConfig)] }

/-- C2 counterexample: with the empty-string category topping `allScores`
(its three "keep" fields are present in the document), the program returns
`primaryType = 'unknown'` although `allScores[0].type = ""` — the `||`
fallback fires on the falsy empty string, refuting the claim's unconditional
`primaryType = allScores[0].type`. -/
theorem detect_primaryType_empty_name_counterexample :
    ((detectDocumentType c2Config cxDoc).allScores.map (fun s => s.type))
        = [""] ∧
    (detectDocumentType c2Config cxDoc).primaryType = "unknown" ∧
    ("unknown" : String) ≠ "" := by
  refine ⟨rfl, rfl, by decide⟩

/-- C1 (amended): for every configured category, the emitted confidence is
`clamp01(0.4·min(frontmatter, 1.2) + 0.4·min(content, 1) + 0.2·min(path, 1))`:
the content and path partial scores are (vacuously) clamped to [0,1], but the
frontmatter partial score is only bounded by 1.2 — the rich-frontmatter bonus
is not clamped away before the weighted combination. -/
theorem detect_confidence_formula (config : AgeConfig) (doc : ParsedDocument)
    (tn : String) (tc : DocumentTypeConfig)
    (h : (tn, tc) ∈ config.documentTypes.getD []) :
    ∃ s ∈ (detectDocumentType config doc).allScores,
      s.type = tn ∧
      s.confidence =
        clamp01 (qmin (scoreFrontmatter doc tn tc).score (6/5) * 0.4 +
                 qmin (scoreContentPatterns doc tn).score 1 * 0.4 +
                 qmin (scoreFilePath doc tn).score 1 * 0.2) := by
  refine ⟨scoreOneType doc tn tc, ?_, rfl, ?_⟩
  · have hraw : scoreOneType doc tn tc ∈ rawTypeScores config doc := by
      unfold rawTypeScores
      exact List.mem_map.2 ⟨(tn, tc), h, rfl⟩
    exact (sortByDesc_perm (fun s => s.confidence) _).mem_iff.2 hraw
  · rw [qmin_eq_left _ _ (scoreFrontmatter_le doc tn tc),
        qmin_eq_left _ _ (scoreContentPatterns_le doc tn),
        qmin_eq_left _ _ (scoreFilePath_le doc tn)]
    have htot : 0 ≤ (scoreFrontmatter doc tn tc).score * 0.4 +
        (scoreContentPatterns doc tn).score * 0.4 +
        (scoreFilePath doc tn).score * 0.2 := by
      have h1 := scoreFrontmatter_nonneg doc tn tc
      have h2 := scoreContentPatterns_nonneg doc tn
      have h3 := scoreFilePath_nonneg doc tn
      linarith
    rw [clamp01_eq_qmin_one _ htot]
    rfl

/-- C1 witness: the amended formula at the concrete one-category input. -/
theorem detect_confidence_formula_witness :
    ∃ s ∈ (detectDocumentType cxConfig cxDoc).allScores,
      s.type = "custom" ∧
      s.confidence =
        clamp01 (qmin (scoreFrontmatter cxDoc "custom" cxTypeConfig).score (6/5) * 0.4 +
                 qmin (scoreContentPatterns cxDoc "custom").score 1 * 0.4 +
                 qmin (scoreFilePath cxDoc "custom").score 1 * 0.2) :=
  detect_confidence_formula cxConfig cxDoc "custom" cxTypeConfig (by decide)

/-- The combination formula exactly as claim C1 states it: every partial
score, including the frontmatter score, clamped to [0,1] before the weighted
sum, and the total clamped again. -/
def claimedCombinedConfidence (doc : ParsedDocument) (tn : String)
    (tc : DocumentTypeConfig) : ℚ :=
  clamp01 (clamp01 (scoreFrontmatter doc tn tc).score * 0.4 +
           clamp01 (scoreContentPatterns doc tn).score * 0.4 +
           clamp01 (scoreFilePath doc tn).score * 0.2)

/-- C1 counterexample: with three matching "keep" fields the code's confidence
is `(3/3)·1.2·0.4 = 0.48`, while the claimed formula (frontmatter clamped to 1
before combining) yields `0.4`. -/
theorem detect_confidence_clamp_counterexample :
    ((detectDocumentType cxConfig cxDoc).allScores.map (fun s => s.confidence))
        = [12/25] ∧
    claimedCombinedConfidence cxDoc "custom" cxTypeConfig = 2/5 ∧
    (12/25 : ℚ) ≠ 2/5 := by
  refine ⟨?_, ?_, by norm_num⟩
  · simp [detectDocumentType, rawTypeScores, scoreOneType, cxConfig, sortByDesc,
      insertByDesc, cx_scoreContentPatterns, cx_scoreFilePath, cx_scoreFrontmatter,
      qmin]
    norm_num
  · rw [claimedCombinedConfidence, cx_scoreContentPatterns, cx_scoreFilePath]
    rw [show (scoreFrontmatter cxDoc "custom" cxTypeConfig).score = 6/5 from
      cx_scoreFrontmatter]
    norm_num [clamp01, qmin, qmax]

/-! ### Configuration merging (`ConfigManager.mergeConfig`,
`src/config/hierarchy.ts`) -/

/-- JS object spread `{ ...a, ...b }` on string-keyed maps: keys of `a` keep
their order with `b`'s values winning, new keys of `b` are appended. -/
def spreadMerge {β : Type} (a b : List (String × β)) : List (String × β) :=
  (a.map (fun kv => (kv.1, (lookupStr b kv.1).getD kv.2))) ++
    b.filter (fun kv => (lookupStr a kv.1).isNone)

/-- `{ ...target.ai, ...source.ai }` with both present: required fields from
the source, optional absent fields fall back to the target. -/
def mergeAIConfig (e t : AIConfig) : AIConfig :=
  { provider := t.provider,
    model := t.model.orElse (fun _ => e.model),
    apiKey := t.apiKey.orElse (fun _ => e.apiKey),
    baseUrl := t.baseUrl.orElse (fun _ => e.baseUrl) }

def mergeBackupConfig (e t : BackupConfig) : BackupConfig :=
  { retention := t.retention,
    compress := t.compress.orElse (fun _ => e.compress),
    maxSize := t.maxSize.orElse (fun _ => e.maxSize) }

def mergeProcessingConfig (e t : ProcessingConfig) : ProcessingConfig :=
  { interactive := t.interactive,
    batchSize := t.batchSize.orElse (fun _ => e.batchSize),
    parallel := t.parallel.orElse (fun _ => e.parallel) }

def mergeContentRules (e t : ContentRules) : ContentRules :=
  { summarize := t.summarize,
    preserve := t.preserve.orElse (fun _ => e.preserve),
    urlProcessing := t.urlProcessing.orElse (fun _ => e.urlProcessing),
    linkVerification := t.linkVerification.orElse (fun _ => e.linkVerification) }

/-- The per-type merge of `mergeConfig` when both tiers define a type:
keep/remove become `[...new Set([...existing, ...incoming])]`, add/modify
merge by spread (a spread of two possibly-absent `modify` maps always yields
a present, possibly empty, map). -/
def mergeDocumentTypeConfig (existing tc : DocumentTypeConfig) :
    DocumentTypeConfig :=
  { frontmatter :=
      { keep := dedupFirst (existing.frontmatter.keep ++ tc.frontmatter.keep),
        remove := dedupFirst (existing.frontmatter.remove ++ tc.frontmatter.remove),
        add := spreadMerge existing.frontmatter.add tc.frontmatter.add,
        modify := some (spreadMerge (existing.frontmatter.modify.getD [])
          (tc.frontmatter.modify.getD [])) },
    content := mergeContentRules existing.content tc.content }

/-- The `documentTypes` loop of `mergeConfig`: each source entry either merges
into an existing same-named type (keeping its position) or is appended. -/
def mergeDocumentTypesLists (target source : List (String × DocumentTypeConfig)) :
    List (String × DocumentTypeConfig) :=
  source.foldl
    (fun tgt p =>
      match lookupStr tgt p.1 with
      | some existing => setStr tgt p.1 (mergeDocumentTypeConfig existing p.2)
      | none => tgt ++ [p])
    target

/-- `ConfigManager.mergeConfig`, as a function from (target, source) to the
merged configuration value. -/
def mergeConfig (target source : AgeConfig) : AgeConfig :=
  { ai :=
      match source.ai with
      | none => target.ai
      | some sai =>
          some (match target.ai with
                | none => sai
                | some tai => mergeAIConfig tai sai),
    backup :=
      match source.backup with
      | none => target.backup
      | some sb =>
          some (match target.backup with
                | none => sb
                | some tb => mergeBackupConfig tb sb),
    processing :=
      match source.processing with
      | none => target.processing
      | some sp =>
          some (match target.processing with
                | none => sp
                | some tp => mergeProcessingConfig tp sp),
    documentTypes :=
      match source.documentTypes with
      | none => target.documentTypes
      | some srcTypes =>
          some (mergeDocumentTypesLists (target.documentTypes.getD []) srcTypes) }

theorem lookupStr_append {β : Type} (a b : List (String × β)) (k : String) :
    lookupStr (a ++ b) k =
      match lookupStr a k with
      | some v => some v
      | none => lookupStr b k := by
  induction a with
  | nil => simp [lookupStr]
  | cons hd tl ih =>
      obtain ⟨k₀, v₀⟩ := hd
      by_cases h : k₀ = k
      · simp [lookupStr, h]
      · simp [lookupStr, h, ih]

/-- Folding source entries whose keys avoid `tn` leaves the lookup at `tn`
unchanged. -/
theorem mergeDocumentTypesLists_lookup_notmem
    (target : List (String × DocumentTypeConfig))
    (srcL : List (String × DocumentTypeConfig)) (tn : String)
    (h : tn ∉ srcL.map Prod.fst) :
    lookupStr (mergeDocumentTypesLists target srcL) tn = lookupStr target tn := by
  induction srcL generalizing target with
  | nil => rfl
  | cons p rest ih =>
      have hk : p.1 ≠ tn := by
        intro hc
        exact h (by simp [hc])
      have hrest : tn ∉ rest.map Prod.fst := by
        intro hc
        exact h (by simp [hc])
      unfold mergeDocumentTypesLists at ih ⊢
      simp only [List.foldl_cons]
      rcases hlk : lookupStr target p.1 with _ | ex
      · rw [ih _ hrest, lookupStr_append]
        have : lookupStr [p] tn = none := by
          simp [lookupStr, hk]
        rcases hlt : lookupStr target tn with _ | v <;> simp [hlt, this]
      · rw [ih _ hrest, lookupStr_setStr_ne _ _ _ _ hk]

/-- Folding the source entries merges the (unique) same-named source entry
into the target entry. -/
theorem mergeDocumentTypesLists_lookup
    (srcL : List (String × DocumentTypeConfig))
    (target : List (String × DocumentTypeConfig)) (tn : String)
    (et es : DocumentTypeConfig)
    (hnd : (srcL.map Prod.fst).Nodup)
    (hmem : (tn, es) ∈ srcL)
    (ht : lookupStr target tn = some et) :
    lookupStr (mergeDocumentTypesLists target srcL) tn =
      some (mergeDocumentTypeConfig et es) := by
  induction srcL generalizing target with
  | nil => cases hmem
  | cons p rest ih =>
      rcases List.mem_cons.1 hmem with heq | hmem'
      · have hp1 : p.1 = tn := by rw [← heq]
        have hp2 : p.2 = es := by rw [← heq]
        have hrest : tn ∉ rest.map Prod.fst := by
          have := (List.nodup_cons.1 hnd).1
          rw [hp1] at this
          exact this
        unfold mergeDocumentTypesLists
        simp only [List.foldl_cons]
        rw [hp1, ht]
        have := mergeDocumentTypesLists_lookup_notmem
          (setStr target tn (mergeDocumentTypeConfig et p.2)) rest tn hrest
        unfold mergeDocumentTypesLists at this
        rw [this, lookupStr_setStr_self, hp2]
      · have hk : p.1 ≠ tn := by
          intro hc
          have h1 := (List.nodup_cons.1 hnd).1
          rw [hc] at h1
          exact h1 (List.mem_map.2 ⟨(tn, es), hmem', rfl⟩)
        have hnd' : (rest.map Prod.fst).Nodup := (List.nodup_cons.1 hnd).2
        unfold mergeDocumentTypesLists
        simp only [List.foldl_cons]
        rcases hlk : lookupStr target p.1 with _ | ex
        · have ht' : lookupStr (target ++ [p]) tn = some et := by
            rw [lookupStr_append, ht]
          exact ih _ hnd' hmem' ht'
        · have ht' : lookupStr (setStr target p.1
              (mergeDocumentTypeConfig ex p.2)) tn = some et := by
            rw [lookupStr_setStr_ne _ _ _ _ hk, ht]
          exact ih _ hnd' hmem' ht'

/-- C3: when two tiers define the same document type, the merged "keep" list
is exactly the duplicate-free union of the two tiers' keep lists, and likewise
for "remove". -/
theorem mergeConfig_keep_remove_union (t s : AgeConfig) (tn : String)
    (et es : DocumentTypeConfig) (srcL : List (String × DocumentTypeConfig))
    (hs : s.documentTypes = some srcL)
    (hnd : (srcL.map Prod.fst).Nodup)
    (hmem : (tn, es) ∈ srcL)
    (ht : lookupStr (t.documentTypes.getD []) tn = some et) :
    ∃ m, lookupStr ((mergeConfig t s).documentTypes.getD []) tn = some m ∧
      (∀ x, x ∈ m.frontmatter.keep ↔
          x ∈ et.frontmatter.keep ∨ x ∈ es.frontmatter.keep) ∧
      m.frontmatter.keep.Nodup ∧
      (∀ x, x ∈ m.frontmatter.remove ↔
          x ∈ et.frontmatter.remove ∨ x ∈ es.frontmatter.remove) ∧
      m.frontmatter.remove.Nodup := by
  refine ⟨mergeDocumentTypeConfig et es, ?_, ?_, nodup_dedupFirst _, ?_,
    nodup_dedupFirst _⟩
  · have hdt : (mergeConfig t s).documentTypes =
        some (mergeDocumentTypesLists (t.documentTypes.getD []) srcL) := by
      unfold mergeConfig
      dsimp only
      rw [hs]
    rw [hdt]
    exact mergeDocumentTypesLists_lookup srcL _ tn et es hnd hmem ht
  · intro x
    simp [mergeDocumentTypeConfig, mem_dedupFirst]
  · intro x
    simp [mergeDocumentTypeConfig, mem_dedupFirst]

def c3TargetType : DocumentTypeConfig :=
  { frontmatter := { keep := ["a", "b"], remove := ["x"], add := [], modify := none },
    content := { summarize := false, preserve := none, urlProcessing := none,
                 linkVerification := none } }

def c3SourceType : DocumentTypeConfig :=
  { frontmatter := { keep := ["b", "c"], remove := ["y"], add := [], modify := none },
    content := { summarize := false, preserve := none, urlProcessing := none,
                 linkVerification := none } }

def c3Target : AgeConfig :=
  { ai := none, backup := none, processing := none,
    documentTypes := some [("t", c3TargetType)] }

def c3Source : AgeConfig :=
  { ai := none, backup := none, processing := none,
    documentTypes := some [("t", c3SourceType)] }

/-- C3 witness: the union property at two concrete tiers sharing type "t". -/
theorem mergeConfig_keep_remove_union_witness :
    ∃ m, lookupStr ((mergeConfig c3Target c3Source).documentTypes.getD []) "t"
        = some m ∧
      (∀ x, x ∈ m.frontmatter.keep ↔
          x ∈ c3TargetType.frontmatter.keep ∨ x ∈ c3SourceType.frontmatter.keep) ∧
      m.frontmatter.keep.Nodup ∧
      (∀ x, x ∈ m.frontmatter.remove ↔
          x ∈ c3TargetType.frontmatter.remove ∨ x ∈ c3SourceType.frontmatter.remove) ∧
      m.frontmatter.remove.Nodup :=
  mergeConfig_keep_remove_union c3Target c3Source "t" c3TargetType c3SourceType
    [("t", c3SourceType)] rfl (by decide) (by decide) (by decide)

/-! ### Compiled-in defaults (`DEFAULT_CONFIG`, `src/config/defaults.ts`) -/

def DEFAULT_DOCUMENT_TYPES : List (String × DocumentTypeConfig) :=
  [("meeting-notes",
    { frontmatter :=
        { keep := ["date", "attendees", "project", "tags"],
          remove := ["author", "status", "draft"],
          add := [("aged_date", "\x7b\x7bcurrent_date\x7d\x7d"),
                  ("summary_length", "short")],
          modify := none },
      content :=
        { summarize := false, preserve := some ["action-items", "decisions"],
          urlProcessing := some true, linkVerification := some true } }),
   ("research",
    { frontmatter :=
        { keep := ["source", "methodology", "tags", "references"],
          remove := ["author", "status", "draft"],
          add := [("aged_date", "\x7b\x7bcurrent_date\x7d\x7d"),
                  ("key_findings", "\x7b\x7bextract_key_findings\x7d\x7d")],
          modify := none },
      content :=
        { summarize := false,
          preserve := some ["methodology", "findings", "conclusions"],
          urlProcessing := some true, linkVerification := some true } }),
   ("project-work",
    { frontmatter :=
        { keep := ["project", "priority", "due_date", "tags"],
          remove := ["status", "draft"],
          add := [("aged_date", "\x7b\x7bcurrent_date\x7d\x7d"),
                  ("completion_status", "\x7b\x7bcalculate_completion\x7d\x7d")],
          modify := none },
      content :=
        { summarize := false,
          preserve := some ["requirements", "blockers", "progress"],
          urlProcessing := some false, linkVerification := some true } }),
   ("personal-notes",
    { frontmatter :=
        { keep := ["date", "tags", "mood"],
          remove := ["author", "draft"],
          add := [("aged_date", "\x7b\x7bcurrent_date\x7d\x7d"),
                  ("reflection_type", "\x7b\x7bdetect_reflection_type\x7d\x7d")],
          modify := none },
      content :=
        { summarize := false, preserve := some ["insights", "ideas"],
          urlProcessing := some false, linkVerification := some false } })]

def DEFAULT_CONFIG : AgeConfig :=
  { ai := some { provider := "none", model := none, apiKey := none, baseUrl := none },
    backup := some { retention := "30d", compress := some false,
                     maxSize := some "100MB" },
    processing := some { interactive := true, batchSize := some 10,
                         parallel := some false },
    documentTypes := some DEFAULT_DOCUMENT_TYPES }

/-! ### Claim C9: object identity in `loadConfigHierarchy`.

`loadConfigHierarchy` starts from `{ ...DEFAULT_CONFIG }`, a SHALLOW copy:
the copy's `documentTypes` property still references the very object stored
in `DEFAULT_CONFIG`.  To express that aliasing, `documentTypes` objects live
in an explicit heap addressed by `Nat`, with `DEFAULT_CONFIG.documentTypes`
at address 0; `mergeConfig`'s writes `target.documentTypes[name] = …` go
through the reference. -/

structure ConfigHeap where
  docTypesObjs : List (List (String × DocumentTypeConfig))
deriving DecidableEq

/-- Process start: the only `documentTypes` object is the compiled-in one. -/
def initialConfigHeap : ConfigHeap := ⟨[DEFAULT_DOCUMENT_TYPES]⟩

/-- The `effective` object built by `{ ...DEFAULT_CONFIG }`: scalar-ish
properties are copied by value, `documentTypes` is copied as a reference. -/
structure AgeConfigRef where
  ai : Option AIConfig
  backup : Option BackupConfig
  processing : Option ProcessingConfig
  documentTypesAddr : Option Nat
deriving DecidableEq

def heapGet (h : ConfigHeap) (a : Nat) : List (String × DocumentTypeConfig) :=
  h.docTypesObjs.getD a []

def heapSet (h : ConfigHeap) (a : Nat) (v : List (String × DocumentTypeConfig)) :
    ConfigHeap :=
  ⟨h.docTypesObjs.set a v⟩

/-- `ConfigManager.mergeConfig(target, source)` with `target` the effective
object: `target.ai = { ...target.ai, ...source.ai }` (and backup/processing)
assign fresh objects to the copy's own properties, but the `documentTypes`
branch writes through the copied reference into the heap. -/
def mergeConfigMut (h : ConfigHeap) (eff : AgeConfigRef) (source : AgeConfig) :
    ConfigHeap × AgeConfigRef :=
  let eff1 : AgeConfigRef :=
    { eff with
      ai :=
        match source.ai with
        | none => eff.ai
        | some sai =>
            some (match eff.ai with
                  | none => sai
                  | some tai => mergeAIConfig tai sai),
      backup :=
        match source.backup with
        | none => eff.backup
        | some sb =>
            some (match eff.backup with
                  | none => sb
                  | some tb => mergeBackupConfig tb sb),
      processing :=
        match source.processing with
        | none => eff.processing
        | some sp =>
            some (match eff.processing with
                  | none => sp
                  | some tp => mergeProcessingConfig tp sp) }
  match source.documentTypes with
  | none => (h, eff1)
  | some srcTypes =>
      match eff1.documentTypesAddr with
      | some a =>
          (heapSet h a (mergeDocumentTypesLists (heapGet h a) srcTypes), eff1)
      | none =>
          let a := h.docTypesObjs.length
          let h1 : ConfigHeap := ⟨h.docTypesObjs ++ [[]]⟩
          (heapSet h1 a (mergeDocumentTypesLists [] srcTypes),
           { eff1 with documentTypesAddr := some a })

/-- `ConfigManager.loadConfigHierarchy`: shallow-copy the defaults, then merge
each present tier in order global → vault → local. -/
def loadConfigHierarchyMut (h : ConfigHeap)
    (globalTier vaultTier localTier : Option AgeConfig) :
    ConfigHeap × AgeConfigRef :=
  let eff0 : AgeConfigRef :=
    { ai := DEFAULT_CONFIG.ai, backup := DEFAULT_CONFIG.backup,
      processing := DEFAULT_CONFIG.processing, documentTypesAddr := some 0 }
  let r1 := match globalTier with
    | none => (h, eff0)
    | some g => mergeConfigMut h eff0 g
  let r2 := match vaultTier with
    | none => r1
    | some v => mergeConfigMut r1.1 r1.2 v
  match localTier with
  | none => r2
  | some l => mergeConfigMut r2.1 r2.2 l

/-- Reading the effective configuration as a value (dereferencing
`documentTypes`). -/
def effectiveValue (h : ConfigHeap) (eff : AgeConfigRef) : AgeConfig :=
  { ai := eff.ai, backup := eff.backup, processing := eff.processing,
    documentTypes := eff.documentTypesAddr.map (heapGet h) }

def c9TierType : DocumentTypeConfig :=
  { frontmatter := { keep := ["kind"], remove := [], add := [], modify := none },
    content := { summarize := false, preserve := none, urlProcessing := none,
                 linkVerification := none } }

/-- A vault-tier override defining a type unknown to the defaults. -/
def c9Tier : AgeConfig :=
  { ai := none, backup := none, processing := none,
    documentTypes := some [("custom-notes", c9TierType)] }

/-- C9: the code violates the claim.  Resolving once with a vault tier that
defines "custom-notes" writes through the shallow-copied reference into the
compiled-in defaults object; a later resolve with no override tiers then
returns a configuration that still contains "custom-notes", although the
compiled-in `DEFAULT_DOCUMENT_TYPES` value defines no such type. -/
theorem loadConfigHierarchy_mutates_defaults :
    lookupStr ((effectiveValue
        (loadConfigHierarchyMut
          (loadConfigHierarchyMut initialConfigHeap none (some c9Tier) none).1
          none none none).1
        (loadConfigHierarchyMut
          (loadConfigHierarchyMut initialConfigHeap none (some c9Tier) none).1
          none none none).2).documentTypes.getD []) "custom-notes"
      = some c9TierType ∧
    lookupStr DEFAULT_DOCUMENT_TYPES "custom-notes" = none := by
  constructor
  · rfl
  · rfl

/-! ### Backup manager (`FileUtils`, `src/utils/files.ts`)

The file system is an explicit state: a map from canonical absolute path to
file content (on which Node `path.resolve` is the identity), the per-directory
backup registries holding what `JSON.parse` returns (a malformed registry file
collapses into the missing-registry branch: warn and start fresh), and a clock
supplying `new Date()`.  `FileEnv` carries the two effects whose results
depend on data outside this state: the content hash
(`crypto.createHash('sha256')... digest('hex')`) and
`FileUtils.findBackupDirectory`'s directory walk.

A BackupRecord's `timestamp` is a `Date` object when the record is created in
this process, but `JSON.stringify` serializes a `Date` to its ISO string and
`JSON.parse` leaves it a string, so registry entries read back from disk carry
string timestamps even though the `BackupInfo` interface declares `Date`.
`TSValue` keeps that runtime distinction; `.getTime()` exists only on the
`date` side. -/

inductive TSValue
  | date (t : Nat)
  | str (s : String)
deriving DecidableEq

/-- The `JSON.stringify`/`JSON.parse` round trip of a timestamp: a `Date`
comes back as its ISO string (rendered from the model's clock), a string
stays itself. -/
def serializeTS : TSValue → TSValue
  | TSValue.date t => TSValue.str (toString t)
  | TSValue.str s => TSValue.str s

def tsIsDate : TSValue → Bool
  | TSValue.date _ => true
  | TSValue.str _ => false

/-- The value of `.getTime()` where it exists; only consulted on values that
are genuine Dates. -/
def tsTime : TSValue → Nat
  | TSValue.date t => t
  | TSValue.str _ => 0

structure BackupInfo where
  originalPath : String
  backupPath : String
  timestamp : TSValue
  fileSize : Nat
  checksum : String
deriving DecidableEq

structure FSState where
  files : List (String × String)
  registries : List (String × List BackupInfo)
  now : Nat
deriving DecidableEq

structure FileEnv where
  hash : String → String
  findBackupDir : String → String

def serializeBackupInfo (b : BackupInfo) : BackupInfo :=
  { b with timestamp := serializeTS b.timestamp }

/-- `registry.sort((a, b) => b.timestamp.getTime() - a.timestamp.getTime())`:
with zero or one element the comparator never runs; with two or more, every
element takes part in at least one comparison, and `.getTime()` on a
JSON-parsed string timestamp throws a TypeError. -/
def sortRegistryDesc (l : List BackupInfo) : Except String (List BackupInfo) :=
  if l.length ≤ 1 then .ok l
  else if l.all (fun b => tsIsDate b.timestamp) then
    .ok (sortByDesc (fun b => tsTime b.timestamp) l)
  else .error "TypeError: timestamp.getTime is not a function"

/-- `FileUtils.updateBackupRegistry`: load (or freshly start) the registry
next to the backup file, push the new record, sort newest-first, save.  The
sort sits outside both try blocks, so its TypeError propagates to the caller;
the saved entries are stored as a later `JSON.parse` will return them. -/
def updateBackupRegistry (info : BackupInfo) (σ : FSState) :
    Except String FSState :=
  let backupDir := dirNameOf info.backupPath
  let registryFile := backupDir ++ "/registry.json"
  let registry := (lookupStr σ.registries registryFile).getD []
  match sortRegistryDesc (registry ++ [info]) with
  | .error e => .error e
  | .ok sorted =>
      .ok { σ with
            registries :=
              setStr σ.registries registryFile
                (sorted.map serializeBackupInfo) }

/-- `FileUtils.createBackup`: name the backup from the original basename plus
a sortable timestamp suffix (the model's clock stands in for the ISO stamp),
read the original, hash it, copy the bytes, record with a fresh `Date`
timestamp, and register — the awaited `updateBackupRegistry` rethrows its
TypeError out of `createBackup`. -/
def createBackup (env : FileEnv) (filePath : String) (σ : FSState) :
    Except String (BackupInfo × FSState) :=
  let backupDir := env.findBackupDir filePath
  let timestampStr := toString σ.now
  let backupPath :=
    backupDir ++ "/" ++ baseNameNoExt filePath ++ "_" ++ timestampStr ++
      extNameOf filePath
  match lookupStr σ.files filePath with
  | none => .error ("File '" ++ filePath ++ "' not found")
  | some content =>
      let checksum := env.hash content
      let σ1 := { σ with files := setStr σ.files backupPath content }
      let info : BackupInfo :=
        { originalPath := filePath, backupPath := backupPath,
          timestamp := TSValue.date σ.now, fileSize := content.length,
          checksum := checksum }
      match updateBackupRegistry info σ1 with
      | .error e => .error e
      | .ok σ2 => .ok (info, σ2)

inductive RestoreError
  | notFound
  | integrity
  | typeError (msg : String)
deriving DecidableEq

/-- `FileUtils.restoreFromBackup`: missing backup file and checksum mismatch
abort before anything is written; otherwise, when the target currently
exists, it is itself backed up first — an exception thrown by that inner
`createBackup` (such as the registry sort's TypeError) rejects the restore
before the write — and finally the backup content is written back. -/
def restoreFromBackup (env : FileEnv) (info : BackupInfo) (σ : FSState) :
    Option RestoreError × FSState :=
  match lookupStr σ.files info.backupPath with
  | none => (some RestoreError.notFound, σ)
  | some backupContent =>
      if env.hash backupContent ≠ info.checksum then
        (some RestoreError.integrity, σ)
      else
        match lookupStr σ.files info.originalPath with
        | some _ =>
            (match createBackup env info.originalPath σ with
             | .ok r =>
                 (none,
                  { r.2 with
                    files := setStr r.2.files info.originalPath backupContent })
             | .error e => (some (RestoreError.typeError e), σ))
        | none =>
            (none,
             { σ with files := setStr σ.files info.originalPath backupContent })

/-- `FileUtils.findBackupsForFile`: registry entries for this path whose
backup file still exists, sorted newest first — but the sort runs inside the
try, so when its comparator throws (string timestamps, at least two entries)
the catch logs a warning and returns the empty list. -/
def findBackupsForFile (env : FileEnv) (filePath : String) (σ : FSState) :
    List BackupInfo :=
  let backupDir := env.findBackupDir filePath
  let registryFile := backupDir ++ "/registry.json"
  match lookupStr σ.registries registryFile with
  | none => []
  | some registry =>
      match sortRegistryDesc
          ((registry.filter (fun b => b.originalPath == filePath)).filter
            (fun b => (lookupStr σ.files b.backupPath).isSome)) with
      | .ok sorted => sorted
      | .error _ => []

theorem lookupStr_setStr_same_val {β : Type} (m : List (String × β))
    (k p : String) (v : β) (h : lookupStr m p = some v) :
    lookupStr (setStr m k v) p = some v := by
  by_cases hk : k = p
  · subst hk
    exact lookupStr_setStr_self m k v
  · rw [lookupStr_setStr_ne m k p v hk]
    exact h

def c4Env : FileEnv :=
  { hash := fun s => s, findBackupDir := fun _ => "/v/.age/backups" }

def c4State : FSState :=
  { files := [("/v/a.md", "hello world")], registries := [], now := 5 }

/-- C4: the code violates the round-trip claim.  Starting from a directory
with no registry, the first `createBackup` succeeds (one entry, no comparator
call) and writes a registry whose entry is read back with an ISO-string
timestamp.  `restoreFromBackup` passes the existence and checksum gates, but
because the original file still exists it first backs it up again: that inner
`createBackup` loads the one-entry registry, pushes the new record and sorts
two entries, calling `.getTime()` on the string timestamp — so the restore
rejects with a TypeError instead of restoring. -/
theorem backup_restore_typeError_bug :
    ∃ info σ1, createBackup c4Env "/v/a.md" c4State = .ok (info, σ1) ∧
      ∃ e, restoreFromBackup c4Env info σ1 =
        (some (RestoreError.typeError e), σ1) := by
  refine ⟨_, _, rfl, _, rfl⟩

/-- C5: a backup file whose current bytes hash differently from the record's
stored checksum makes `restore` fail with the integrity error and leave the
file system untouched (in particular nothing is written to the original
path); a missing backup file fails with the not-found error. -/
theorem restore_integrity_guard (env : FileEnv) (info : BackupInfo) (σ : FSState) :
    (∀ content, lookupStr σ.files info.backupPath = some content →
        env.hash content ≠ info.checksum →
        restoreFromBackup env info σ = (some RestoreError.integrity, σ)) ∧
    (lookupStr σ.files info.backupPath = none →
        restoreFromBackup env info σ = (some RestoreError.notFound, σ)) := by
  constructor
  · intro content hc hne
    unfold restoreFromBackup
    rw [hc]
    dsimp only
    rw [if_pos hne]
  · intro hn
    unfold restoreFromBackup
    rw [hn]

def c5Info : BackupInfo :=
  { originalPath := "/v/a.md", backupPath := "/v/.age/backups/a_1.md",
    timestamp := TSValue.date 1, fileSize := 11, checksum := "hello world" }

def c5StateMutated : FSState :=
  { files := [("/v/a.md", "hello world"),
              ("/v/.age/backups/a_1.md", "tampered!!!")],
    registries := [], now := 9 }

def c5StateMissing : FSState :=
  { files := [("/v/a.md", "hello world")], registries := [], now := 9 }

/-- C5 witness: a tampered backup file triggers the integrity error and a
deleted backup file triggers the not-found error, both leaving the state
unchanged. -/
theorem restore_integrity_guard_witness :
    restoreFromBackup c4Env c5Info c5StateMutated
        = (some RestoreError.integrity, c5StateMutated) ∧
    restoreFromBackup c4Env c5Info c5StateMissing
        = (some RestoreError.notFound, c5StateMissing) :=
  ⟨(restore_integrity_guard c4Env c5Info c5StateMutated).1 "tampered!!!" rfl
      (by decide),
   (restore_integrity_guard c4Env c5Info c5StateMissing).2 rfl⟩

def c6Old : BackupInfo :=
  { originalPath := "/v/a.md", backupPath := "/v/.age/backups/a_1.md",
    timestamp := TSValue.str "2026-01-01T00:00:01.000Z", fileSize := 3,
    checksum := "old" }

def c6New : BackupInfo :=
  { originalPath := "/v/a.md", backupPath := "/v/.age/backups/a_7.md",
    timestamp := TSValue.str "2026-01-07T00:00:07.000Z", fileSize := 3,
    checksum := "new" }

def c6Other : BackupInfo :=
  { originalPath := "/v/b.md", backupPath := "/v/.age/backups/b_3.md",
    timestamp := TSValue.str "2026-01-03T00:00:03.000Z", fileSize := 3,
    checksum := "oth" }

def c6State : FSState :=
  { files := [("/v/a.md", "cur"),
              ("/v/.age/backups/a_1.md", "old"),
              ("/v/.age/backups/a_7.md", "new"),
              ("/v/.age/backups/b_3.md", "oth")],
    registries := [("/v/.age/backups/registry.json", [c6New, c6Other, c6Old])],
    now := 9 }

/-- C6: the code violates the claim whenever at least two live entries match.
Registry entries parsed from JSON carry string timestamps, so with the two
matching, still-existing records below the final `.sort` comparator throws a
TypeError on its first comparison; the surrounding catch logs a warning and
`findBackupsForFile` returns the empty list instead of the two entries
newest-first. -/
theorem findBackupsForFile_typeError_bug :
    findBackupsForFile c4Env "/v/a.md" c6State = [] ∧
    lookupStr c6State.registries "/v/.age/backups/registry.json" =
      some [c6New, c6Other, c6Old] ∧
    c6New.originalPath = "/v/a.md" ∧ c6Old.originalPath = "/v/a.md" ∧
    (lookupStr c6State.files c6New.backupPath).isSome = true ∧
    (lookupStr c6State.files c6Old.backupPath).isSome = true ∧
    c6New ≠ c6Old := by
  refine ⟨rfl, rfl, rfl, rfl, rfl, rfl, by decide⟩

/-! ### Link verifier (`LinkProcessor`, `src/filters/links.ts`)

The network and the directory walks are oracles in `LinkEnv`; the in-memory
URL cache, a log of issued network requests (model bookkeeping for "no new
request"), and the clock form the explicit `LinkState`. -/

inductive LinkStatus
  | valid
  | broken
  | redirect
  | timeout
  | error
  | unknown
deriving DecidableEq

structure LinkVerificationResult where
  url : String
  status : LinkStatus
  statusCode : Option Nat
  redirectUrl : Option String
  responseTime : Option Nat
  error : Option String
deriving DecidableEq

/-- What one `fetch` of a URL does: an HTTP response (status code plus
optional `location` header), an abort by the 10-second timer, a
host-not-found / connection-refused failure, or another transport error. -/
inductive NetOutcome
  | response (status : Nat) (location : Option String)
  | aborted
  | unreachable
  | failure (msg : String)
deriving DecidableEq

/-- A cache slot: the stored result plus the `(result as any).timestamp`
patched on at store time. -/
structure CacheEntry where
  result : LinkVerificationResult
  timestamp : Nat
deriving DecidableEq

structure LinkState where
  cache : List (String × CacheEntry)
  netLog : List String
  now : Nat
deriving DecidableEq

structure LinkEnv where
  net : String → NetOutcome
  vaultRootOf : String → String
  mdFilesUnder : String → List String
  fileExists : String → Bool

/-- `this.cacheExpiry = 24 * 60 * 60 * 1000`. -/
def cacheExpiryMs : Nat := 24 * 60 * 60 * 1000

/-- The fetch-and-classify body of `verifyExternalLink` (cache miss): 2xx →
valid, 3xx → redirect with the location header recorded (`|| undefined`
turns an absent or empty header into no redirect target), ≥400 → broken,
other codes → error; abort → timeout, unreachable host → broken, other
transport failure → error.  The result, stamped with the current time, is
always cached — success or failure alike — and the request is logged.
`responseTime` is 0 because the model's clock does not advance within a
call. -/
def fetchExternal (env : LinkEnv) (url : String) (σ : LinkState) :
    LinkVerificationResult × LinkState :=
  let base : LinkVerificationResult :=
    { url := url, status := LinkStatus.error, statusCode := none,
      redirectUrl := none, responseTime := some 0, error := none }
  let result :=
    match env.net url with
    | NetOutcome.response s loc =>
        if 200 ≤ s ∧ s < 300 then
          { base with
            status := LinkStatus.valid,
            statusCode := some s }
        else if 300 ≤ s ∧ s < 400 then
          { base with
            status := LinkStatus.redirect,
            statusCode := some s,
            redirectUrl :=
              (match loc with
               | some l => if l = "" then none else some l
               | none => none) }
        else if 400 ≤ s then
          { base with
            status := LinkStatus.broken,
            statusCode := some s }
        else
          { base with
            status := LinkStatus.error,
            statusCode := some s,
            error := some ("Unexpected status code: " ++ toString s) }
    | NetOutcome.aborted =>
        { base with
          status := LinkStatus.timeout,
          error := some "Request timed out after 10 seconds" }
    | NetOutcome.unreachable =>
        { base with
          status := LinkStatus.broken,
          error := some "Host not found or connection refused" }
    | NetOutcome.failure m =>
        { base with
          status := LinkStatus.error,
          error := some m }
  (result,
   { σ with
     cache := setStr σ.cache url ⟨result, σ.now⟩,
     netLog := url :: σ.netLog })

/-- `LinkProcessor.verifyExternalLink`: an unexpired cache entry
short-circuits the network call and leaves the state untouched. -/
def verifyExternalLink (env : LinkEnv) (url : String) (σ : LinkState) :
    LinkVerificationResult × LinkState :=
  match lookupStr σ.cache url with
  | some entry =>
      if σ.now - entry.timestamp < cacheExpiryMs then (entry.result, σ)
      else fetchExternal env url σ
  | none => fetchExternal env url σ

inductive VaultStatus
  | valid
  | broken
  | ambiguous
deriving DecidableEq

structure VaultLinkResult where
  link : String
  status : VaultStatus
  resolvedPath : Option String
  alternatives : Option (List String)
deriving DecidableEq

/-- `link.replace(/^\[\[|\]\]$/g, '')`: strip a leading `[[` and a trailing
`]]`. -/
def stripWikiBrackets (s : String) : String :=
  let s1 := if strStarts s "[[" then strDrop s 2 else s
  if strEnds s1 "]]" then strDropRight s1 2 else s1

/-- `path.basename(filePath, '.md')`. -/
def baseNameMd (f : String) : String :=
  let b := baseNameOf f
  if strEnds b ".md" then strDropRight b 3 else b

/-- `LinkProcessor.findMatchingFiles`: a link path containing a dot or slash
is resolved against the vault root (also with `.md` appended when it lacks
that extension); otherwise every markdown file of the vault with the same
case-insensitive basename matches, in traversal order. -/
def findMatchingFiles (env : LinkEnv) (linkPath : String) (vaultRoot : String) :
    List String :=
  if strHasChar linkPath '.' || strHasChar linkPath '/' then
    let fullPath := vaultRoot ++ "/" ++ linkPath
    let m1 := if env.fileExists fullPath then [fullPath] else []
    let m2 :=
      if !strEnds linkPath ".md" then
        let mdPath := vaultRoot ++ "/" ++ linkPath ++ ".md"
        if env.fileExists mdPath then [mdPath] else []
      else []
    m1 ++ m2
  else
    (env.mdFilesUnder vaultRoot).filter
      (fun f => toLowerStr (baseNameMd f) == toLowerStr linkPath)

/-- `LinkProcessor.verifyVaultLink`.  (`findVaultRoot` always returns a
directory — its `null` guard in the caller is dead — so the environment's
`vaultRootOf` is total.) -/
def verifyVaultLink (env : LinkEnv) (link : String) (documentPath : String) :
    VaultLinkResult :=
  let cleanLink := stripWikiBrackets link
  let linkPath := beforePipe cleanLink
  let vaultRoot := env.vaultRootOf documentPath
  match findMatchingFiles env (trimStr linkPath) vaultRoot with
  | [] =>
      { link := cleanLink, status := VaultStatus.broken,
        resolvedPath := none, alternatives := none }
  | [m] =>
      { link := cleanLink, status := VaultStatus.valid,
        resolvedPath := some m, alternatives := none }
  | m :: restMatches =>
      { link := cleanLink, status := VaultStatus.ambiguous,
        resolvedPath := some m, alternatives := some restMatches }

inductive LinkChangeKind
  | verify
  | update
  | remove
deriving DecidableEq

structure LinkChange where
  type : LinkChangeKind
  url : Option String
  link : Option String
  status : Option LinkStatus
  newUrl : Option String
  reason : String
deriving DecidableEq

/-- The external-link arm of the `planLinkChanges` loop body: broken →
`remove`; redirect with a redirect target → `update`; everything else →
`verify` carrying the verification status. -/
def externalChangeFor (u : String) (v : LinkVerificationResult) : LinkChange :=
  if v.status == LinkStatus.broken then
    { type := LinkChangeKind.remove, url := some u, link := none,
      status := some LinkStatus.broken, newUrl := none,
      reason := "External link is broken (" ++
        (match v.statusCode with
         | some n => toString n
         | none => "unreachable") ++ ")" }
  else if v.status == LinkStatus.redirect && v.redirectUrl.isSome then
    { type := LinkChangeKind.update, url := some u, link := none,
      status := some LinkStatus.redirect, newUrl := v.redirectUrl,
      reason := "External link redirects to " ++ v.redirectUrl.getD "" }
  else
    { type := LinkChangeKind.verify, url := some u, link := none,
      status := some v.status, newUrl := none,
      reason := "External link verified (" ++
        (match v.statusCode with
         | some n => toString n
         | none => "undefined") ++ ")" }

/-- The internal-link arm of the loop body: broken → `remove`; ambiguous →
`verify` (reported with status `valid` and the alternatives in the reason);
otherwise `verify`. -/
def internalChangeFor (lk : String) (v : VaultLinkResult) : LinkChange :=
  if v.status == VaultStatus.broken then
    { type := LinkChangeKind.remove, url := none, link := some lk,
      status := some LinkStatus.broken, newUrl := none,
      reason := "Internal vault link target not found" }
  else if v.status == VaultStatus.ambiguous then
    { type := LinkChangeKind.verify, url := none, link := some lk,
      status := some LinkStatus.valid, newUrl := none,
      reason := "Internal link found multiple matches: " ++
        String.intercalate ", " (v.alternatives.getD []) }
  else
    { type := LinkChangeKind.verify, url := none, link := some lk,
      status := some LinkStatus.valid, newUrl := none,
      reason := "Internal link verified: " ++ (v.resolvedPath.getD "undefined") }

/-- One iteration of the `planLinkChanges` loop: at most one external change
(threading the cache state) and at most one internal change. -/
def planOneLink (env : LinkEnv) (documentPath : String)
    (verifyExternal verifyInternal : Bool) (l : Link) (σ : LinkState) :
    List LinkChange × LinkState :=
  let ext :=
    if l.type == LinkKind.external && verifyExternal then
      match l.url with
      | some u =>
          let r := verifyExternalLink env u σ
          ([externalChangeFor u r.1], r.2)
      | none => ([], σ)
    else ([], σ)
  let intChanges :=
    if l.type == LinkKind.internal && verifyInternal then
      match l.link with
      | some lk => [internalChangeFor lk (verifyVaultLink env lk documentPath)]
      | none => []
    else []
  (ext.1 ++ intChanges, ext.2)

/-- `LinkProcessor.planLinkChanges`. -/
def planLinkChanges (env : LinkEnv) (links : List Link) (documentPath : String)
    (verifyExternal verifyInternal : Bool) (σ : LinkState) :
    List LinkChange × LinkState :=
  match links with
  | [] => ([], σ)
  | l :: rest =>
      let r1 := planOneLink env documentPath verifyExternal verifyInternal l σ
      let r2 := planLinkChanges env rest documentPath verifyExternal
        verifyInternal r1.2
      (r1.1 ++ r2.1, r2.2)

theorem planOneLink_external (env : LinkEnv) (documentPath : String) (vi : Bool)
    (l : Link) (σ : LinkState) (u : String)
    (ht : l.type = LinkKind.external) (hu : l.url = some u) :
    planOneLink env documentPath true vi l σ =
      ([externalChangeFor u (verifyExternalLink env u σ).1],
       (verifyExternalLink env u σ).2) := by
  unfold planOneLink
  rw [ht, hu]
  simp

/-- C7 (amended): every external link with a URL contributes exactly one
LinkChange, whose kind is: `remove` when the verification status is broken,
`update` carrying the redirect target when the status is redirect AND a
redirect target was recorded, and `verify` (carrying the status) otherwise —
including the valid, timeout and error statuses, and a redirect whose
response carried no usable Location header. -/
theorem planLinkChanges_external_mapping (env : LinkEnv) (documentPath : String)
    (vi : Bool) (l : Link) (rest : List Link) (σ : LinkState) (u : String)
    (ht : l.type = LinkKind.external) (hu : l.url = some u) :
    ∃ c, (planLinkChanges env (l :: rest) documentPath true vi σ).1 =
        c :: (planLinkChanges env rest documentPath true vi
          (verifyExternalLink env u σ).2).1 ∧
      ((verifyExternalLink env u σ).1.status = LinkStatus.broken →
        c.type = LinkChangeKind.remove ∧ c.status = some LinkStatus.broken) ∧
      (∀ r, (verifyExternalLink env u σ).1.status = LinkStatus.redirect →
        (verifyExternalLink env u σ).1.redirectUrl = some r →
        c.type = LinkChangeKind.update ∧ c.newUrl = some r ∧
          c.status = some LinkStatus.redirect) ∧
      ((verifyExternalLink env u σ).1.status ≠ LinkStatus.broken →
        ¬((verifyExternalLink env u σ).1.status = LinkStatus.redirect ∧
            (verifyExternalLink env u σ).1.redirectUrl.isSome) →
        c.type = LinkChangeKind.verify ∧
          c.status = some (verifyExternalLink env u σ).1.status) := by
  refine ⟨externalChangeFor u (verifyExternalLink env u σ).1, ?_, ?_, ?_, ?_⟩
  · have h1 := planOneLink_external env documentPath vi l σ u ht hu
    simp only [planLinkChanges, h1]
    simp
  · intro hb
    simp [externalChangeFor, hb]
  · intro r hst hr
    simp [externalChangeFor, hst, hr]
  · intro hnb hnru
    have h1 : ((verifyExternalLink env u σ).1.status == LinkStatus.broken)
        = false := by
      simp [beq_iff_eq, hnb]
    have h2 : ((verifyExternalLink env u σ).1.status == LinkStatus.redirect &&
        (verifyExternalLink env u σ).1.redirectUrl.isSome) = false := by
      by_cases hs : (verifyExternalLink env u σ).1.status = LinkStatus.redirect
      · have hro : (verifyExternalLink env u σ).1.redirectUrl.isSome = false := by
          cases hro : (verifyExternalLink env u σ).1.redirectUrl.isSome
          · rfl
          · exact absurd ⟨hs, hro⟩ hnru
        simp [hro]
      · simp [beq_iff_eq, hs]
    simp [externalChangeFor, h1, h2]

def c7Env404 : LinkEnv :=
  { net := fun _ => NetOutcome.response 404 none,
    vaultRootOf := fun _ => "/v", mdFilesUnder := fun _ => [],
    fileExists := fun _ => false }

def c7Link : Link :=
  { type := LinkKind.external, url := some "https://gone.example/x",
    link := none, text := "x", line := 3 }

def c7State : LinkState := { cache := [], netLog := [], now := 1000 }

/-- C7 witness: an HTTP 404 response yields exactly one change, of kind
`remove` with status broken. -/
theorem planLinkChanges_external_mapping_witness :
    ∃ c, (planLinkChanges c7Env404 [c7Link] "/v/d.md" true true c7State).1 =
        c :: (planLinkChanges c7Env404 [] "/v/d.md" true true
          (verifyExternalLink c7Env404 "https://gone.example/x" c7State).2).1 ∧
      c.type = LinkChangeKind.remove ∧ c.status = some LinkStatus.broken := by
  obtain ⟨c, hc, hbr, _, _⟩ :=
    planLinkChanges_external_mapping c7Env404 "/v/d.md" true c7Link [] c7State
      "https://gone.example/x" rfl rfl
  have hst : (verifyExternalLink c7Env404 "https://gone.example/x" c7State).1.status
      = LinkStatus.broken := rfl
  obtain ⟨h1, h2⟩ := hbr hst
  exact ⟨c, hc, h1, h2⟩

def c7EnvRedir : LinkEnv :=
  { net := fun _ => NetOutcome.response 301 none,
    vaultRootOf := fun _ => "/v", mdFilesUnder := fun _ => [],
    fileExists := fun _ => false }

/-- C7 counterexample: a 301 response without a Location header has
verification status redirect, yet the planned change is of kind `verify`,
not `update` — the claim's "update when the status is redirect" fails. -/
theorem planLinkChanges_redirect_counterexample :
    ((planLinkChanges c7EnvRedir [c7Link] "/v/d.md" true true c7State).1.map
        (fun c => (c.type, c.status, c.newUrl))) =
      [(LinkChangeKind.verify, some LinkStatus.redirect, none)] ∧
    LinkChangeKind.verify ≠ LinkChangeKind.update := by
  constructor
  · rfl
  · decide

/-- C8: internal cross-reference resolution is determined by the match list:
none → broken, exactly one → valid with that file resolved, several →
ambiguous with the first as default and the rest as alternatives. -/
theorem verifyVaultLink_match_cases (env : LinkEnv) (lnk documentPath : String) :
    (findMatchingFiles env (trimStr (beforePipe (stripWikiBrackets lnk)))
        (env.vaultRootOf documentPath) = [] →
      verifyVaultLink env lnk documentPath =
        { link := stripWikiBrackets lnk, status := VaultStatus.broken,
          resolvedPath := none, alternatives := none }) ∧
    (∀ m, findMatchingFiles env (trimStr (beforePipe (stripWikiBrackets lnk)))
        (env.vaultRootOf documentPath) = [m] →
      verifyVaultLink env lnk documentPath =
        { link := stripWikiBrackets lnk, status := VaultStatus.valid,
          resolvedPath := some m, alternatives := none }) ∧
    (∀ m m2 ms, findMatchingFiles env (trimStr (beforePipe (stripWikiBrackets lnk)))
        (env.vaultRootOf documentPath) = m :: m2 :: ms →
      verifyVaultLink env lnk documentPath =
        { link := stripWikiBrackets lnk, status := VaultStatus.ambiguous,
          resolvedPath := some m, alternatives := some (m2 :: ms) }) := by
  refine ⟨?_, ?_, ?_⟩
  · intro h
    unfold verifyVaultLink
    dsimp only
    rw [h]
  · intro m h
    unfold verifyVaultLink
    dsimp only
    rw [h]
  · intro m m2 ms h
    unfold verifyVaultLink
    dsimp only
    rw [h]

def c8Env : LinkEnv :=
  { net := fun _ => NetOutcome.aborted, vaultRootOf := fun _ => "/v",
    mdFilesUnder := fun _ => ["/v/a/note.md", "/v/b/note.md"],
    fileExists := fun _ => false }

/-- C8 witness: two files named `note.md` in different directories make
`[[note]]` ambiguous, resolving to the first with the second as the sole
alternative. -/
theorem verifyVaultLink_match_cases_witness :
    verifyVaultLink c8Env "[[note]]" "/v/d.md" =
      { link := "note", status := VaultStatus.ambiguous,
        resolvedPath := some "/v/a/note.md",
        alternatives := some ["/v/b/note.md"] } :=
  (verifyVaultLink_match_cases c8Env "[[note]]" "/v/d.md").2.2 "/v/a/note.md"
    "/v/b/note.md" [] rfl

/-- Advance the wall clock between calls. -/
def advanceClock (d : Nat) (σ : LinkState) : LinkState :=
  { σ with now := σ.now + d }

/-- A fresh, unexpired cache entry short-circuits the call. -/
theorem verifyExternalLink_hit (env : LinkEnv) (url : String) (τ : LinkState)
    (e : CacheEntry) (h : lookupStr τ.cache url = some e)
    (ht : τ.now - e.timestamp < cacheExpiryMs) :
    verifyExternalLink env url τ = (e.result, τ) := by
  unfold verifyExternalLink
  rw [h]
  dsimp only
  rw [if_pos ht]

/-- C10: every verification result is cached, failures included: after a
first (uncached) verification of a URL, a second verification within the
cache's time-to-live returns the stored result of the first call with the
state unchanged — in particular no new network request is issued (the
request log is untouched). -/
theorem verifyExternalLink_caches_all (env : LinkEnv) (url : String)
    (σ : LinkState) (d : Nat)
    (hfresh : lookupStr σ.cache url = none) (hd : d < cacheExpiryMs) :
    verifyExternalLink env url
        (advanceClock d (verifyExternalLink env url σ).2) =
      ((verifyExternalLink env url σ).1,
       advanceClock d (verifyExternalLink env url σ).2) ∧
    (verifyExternalLink env url
        (advanceClock d (verifyExternalLink env url σ).2)).2.netLog =
      (verifyExternalLink env url σ).2.netLog := by
  have hfetch : verifyExternalLink env url σ = fetchExternal env url σ := by
    unfold verifyExternalLink
    rw [hfresh]
  have hcache : (verifyExternalLink env url σ).2.cache =
      setStr σ.cache url ⟨(verifyExternalLink env url σ).1, σ.now⟩ := by
    rw [hfetch]
    rfl
  have hnow : (verifyExternalLink env url σ).2.now = σ.now := by
    rw [hfetch]
    rfl
  have hlook : lookupStr
      (advanceClock d (verifyExternalLink env url σ).2).cache url =
      some ⟨(verifyExternalLink env url σ).1, σ.now⟩ := by
    show lookupStr (verifyExternalLink env url σ).2.cache url = _
    rw [hcache]
    exact lookupStr_setStr_self _ _ _
  have htime : (advanceClock d (verifyExternalLink env url σ).2).now -
      (⟨(verifyExternalLink env url σ).1, σ.now⟩ : CacheEntry).timestamp <
      cacheExpiryMs := by
    show (verifyExternalLink env url σ).2.now + d - σ.now < cacheExpiryMs
    rw [hnow, Nat.add_sub_cancel_left]
    exact hd
  have hmain := verifyExternalLink_hit env url
    (advanceClock d (verifyExternalLink env url σ).2)
    ⟨(verifyExternalLink env url σ).1, σ.now⟩ hlook htime
  refine ⟨hmain, ?_⟩
  rw [hmain]
  rfl

def c10Env : LinkEnv :=
  { net := fun _ => NetOutcome.unreachable, vaultRootOf := fun _ => "/v",
    mdFilesUnder := fun _ => [], fileExists := fun _ => false }

def c10State : LinkState := { cache := [], netLog := [], now := 500 }

/-- C10 witness: a failure result (broken: host unreachable) is served from
the cache one minute later without contacting the network again. -/
theorem verifyExternalLink_caches_all_witness :
    (verifyExternalLink c10Env "https://dead.example"
        (advanceClock 60000
          (verifyExternalLink c10Env "https://dead.example" c10State).2) =
      ((verifyExternalLink c10Env "https://dead.example" c10State).1,
       advanceClock 60000
         (verifyExternalLink c10Env "https://dead.example" c10State).2)) ∧
    (verifyExternalLink c10Env "https://dead.example" c10State).1.status =
      LinkStatus.broken := by
  constructor
  · exact (verifyExternalLink_caches_all c10Env "https://dead.example" c10State
      60000 rfl (by norm_num [cacheExpiryMs])).1
  · rfl
